import Mathlib

/-!
# Open-WA-CRM: verification of the message pipeline against its specification

A shallow embedding of the WhatsApp Business CRM backend
(`backend/apps/{chat,contacts,config_api,ai_bot,common}`), covering the
Django model records, the webhook views, the REST message endpoints, the
Celery tasks of the asynchronous message pipeline, the template renderer
and the media-conversion utility, together with theorems settling the
frozen claims about the natural-language specification.

Conventions of the embedding:
* Database rows become Lean structures; the ORM's persistent store becomes
  an explicit `DB` record threaded through each operation.
* Django `get_or_create` / `create` / `filter(...).first()` become total
  functions over the lists in `DB`; the database uniqueness constraint on
  `Message.whatsapp_id` makes `message_create` fail (like the `IntegrityError`
  an `INSERT` raises) on a duplicate.
* Celery `task.delay(...)` calls, message persistence and channel-layer
  pushes are recorded as `Event`s in the order the Python statements
  execute, so temporal claims become statements about traces.
* External effects (Meta's HTTP API, the AI provider, `uuid4`, the clock)
  become fields of an explicit environment record.
* Timestamps are `Nat`; primary keys are `Nat`; `CharField` values are
  `String`; nullable columns are `Option`.
-/

namespace CRM

/-! ## Python string primitives

The Python string operations the sources use (`startswith`, `endswith`,
`strip`, `lower`, `replace`, `int(...)`), modelled on the character list
underlying a `String` so that every definition evaluates inside the
kernel. -/

/-- `pat` is a leading segment of `l`. -/
def leads : List Char → List Char → Bool
  | [], _ => true
  | _ :: _, [] => false
  | c :: cs, d :: ds => c == d && leads cs ds

def strOfList (l : List Char) : String := ⟨l⟩

/-- `s.startswith(pat)`. -/
def str_starts (pat s : String) : Bool := leads pat.data s.data

/-- `s.endswith(pat)`. -/
def str_ends (pat s : String) : Bool := leads pat.data.reverse s.data.reverse

/-- `s.strip()` (surrounding whitespace removed). -/
def py_strip (s : String) : String :=
  strOfList (((s.data.dropWhile Char.isWhitespace).reverse.dropWhile
    Char.isWhitespace).reverse)

/-- `s.lower()`. -/
def str_lower (s : String) : String := strOfList (s.data.map Char.toLower)

/-- `s.replace(old, new)`: every non-overlapping occurrence, left to
right.  (Python inserts `new` around every character when `old` is empty;
the sources only substitute brace-delimited placeholders, so the empty
pattern is treated as matching nowhere.) -/
def replaceCharsAux (pat rep : List Char) : Nat → List Char → List Char
  | _, [] => []
  | 0, l => l
  | fuel + 1, c :: rest =>
      if !pat.isEmpty && leads pat (c :: rest) then
        rep ++ replaceCharsAux pat rep fuel ((c :: rest).drop pat.length)
      else
        c :: replaceCharsAux pat rep fuel rest

/-- Each recursion step consumes at least one character, so character-count
fuel never runs out. -/
def replaceChars (pat rep s : List Char) : List Char :=
  replaceCharsAux pat rep s.length s

def py_replace (s pat rep : String) : String :=
  strOfList (replaceChars pat.data rep.data s.data)

def digitChar : Nat → Char
  | 0 => '0' | 1 => '1' | 2 => '2' | 3 => '3' | 4 => '4'
  | 5 => '5' | 6 => '6' | 7 => '7' | 8 => '8' | 9 => '9'
  | _ => '?'

def natCharsAux : Nat → Nat → List Char
  | 0, _ => []
  | fuel + 1, n =>
      if n < 10 then [digitChar n]
      else natCharsAux fuel (n / 10) ++ [digitChar (n % 10)]

/-- Python `str(n)` for a natural number (the fuel bounds the digit
count, which `n + 1` always covers). -/
def natChars (n : Nat) : List Char := natCharsAux (n + 1) n

def py_nat_str (n : Nat) : String := strOfList (natChars n)

/-- Decimal digit run to a number. -/
def digitsToNat? (l : List Char) : Option Nat :=
  if l ≠ [] ∧ l.all Char.isDigit then
    some (l.foldl (fun acc c => 10 * acc + (c.toNat - '0'.toNat)) 0)
  else none

/-- Python `int(s)`: optional surrounding whitespace, optional sign,
decimal digits (underscore separators are not modelled). -/
def py_int? (s : String) : Option Int :=
  match (py_strip s).data with
  | '+' :: rest => (digitsToNat? rest).map Int.ofNat
  | '-' :: rest => (digitsToNat? rest).map (fun n => -(n : Int))
  | rest => (digitsToNat? rest).map Int.ofNat

/-- `config_api.models.WhatsAppAccount`: a connected WhatsApp Business
account.  Fields not used by any claim (name, business_account_id, owner,
status) are omitted. -/
structure WhatsAppAccount where
  id : Nat
  phone_number_id : String
  webhook_verify_token : String
deriving DecidableEq

/-- `contacts.models.Contact`: unique together `(account, phone_number)`. -/
structure Contact where
  id : Nat
  account : Nat
  phone_number : String
  name : String
deriving DecidableEq

/-- `chat.models.Conversation`: unique together `(account, contact)`;
`status` defaults to `'open'`; `last_message_at` is nullable. -/
structure Conversation where
  id : Nat
  account : Nat
  contact : Nat
  status : String
  last_message_at : Option Nat
deriving DecidableEq

/-- `chat.models.Message`.  `whatsapp_id` carries `unique=True` in the
model; `direction`, `message_type` and `delivery_status` are `CharField`s
(Django does not enforce the declared choices on `save`).  The raw JSON
`metadata` column is not modelled: no claim inspects it. -/
structure Message where
  id : Nat
  conversation : Nat
  whatsapp_id : String
  direction : String
  message_type : String
  body : String
  media_url : Option String
  delivery_status : String
deriving DecidableEq

/-- `config_api.models.WhatsAppTemplate` component entries and the
parameter dictionaries submitted with `send_template` requests.  A single
structure models both kinds of JSON dict: stored template components carry
`ctype = "BODY"` and a `text`; submitted components carry `ctype = "body"`
and a `parameters` list. -/
structure TemplateParameter where
  ptype : String
  text : String
  parameter_name : Option String
deriving DecidableEq

structure TemplateComponent where
  ctype : String
  text : Option String
  parameters : List TemplateParameter
deriving DecidableEq

/-- `config_api.models.WhatsAppTemplate`: unique together
`(account, name, language)`. -/
structure WhatsAppTemplate where
  id : Nat
  account : Nat
  name : String
  language : String
  status : String
  components : List TemplateComponent
deriving DecidableEq

/-- The relational store. -/
structure DB where
  accounts : List WhatsAppAccount
  contacts : List Contact
  conversations : List Conversation
  messages : List Message
  templates : List WhatsAppTemplate
deriving DecidableEq

/-- `Contact.objects.get_or_create(account=…, phone_number=…, defaults={'name': …})`.
Returns the row, the new store and the `created` flag. -/
def contact_get_or_create (db : DB) (fresh : Nat) (acct : Nat)
    (phone : String) (default_name : String) : Contact × DB × Bool :=
  match db.contacts.find? (fun c => c.account == acct && c.phone_number == phone) with
  | some c => (c, db, false)
  | none =>
      let c : Contact := ⟨fresh, acct, phone, default_name⟩
      (c, { db with contacts := db.contacts ++ [c] }, true)

/-- `Conversation.objects.get_or_create(account=…, contact=…, defaults={'status': 'open'})`
(the model default for `status` is `'open'` as well, so the service-layer
call without `defaults` creates the same row). -/
def conversation_get_or_create (db : DB) (fresh : Nat) (acct : Nat)
    (contact : Nat) : Conversation × DB × Bool :=
  match db.conversations.find? (fun c => c.account == acct && c.contact == contact) with
  | some c => (c, db, false)
  | none =>
      let c : Conversation := ⟨fresh, acct, contact, "open", none⟩
      (c, { db with conversations := db.conversations ++ [c] }, true)

/-- `Message.objects.create(...)`: the `INSERT` fails with an
`IntegrityError` when the unique `whatsapp_id` column already holds the
value. -/
def message_create (db : DB) (m : Message) : Except String DB :=
  if db.messages.any (fun x => x.whatsapp_id == m.whatsapp_id) then
    Except.error "IntegrityError: duplicate whatsapp_id"
  else
    Except.ok { db with messages := db.messages ++ [m] }

/-- `conversation.last_message_at = timezone.now(); conversation.save(update_fields=['last_message_at'])`. -/
def conversation_save_last_message_at (db : DB) (cid : Nat) (t : Nat) : DB :=
  { db with
    conversations := db.conversations.map
      (fun c => if c.id == cid then { c with last_message_at := some t } else c) }

/-- `message.delivery_status = new_status; message.save(update_fields=['delivery_status', 'updated_at'])`
for the row matched by `whatsapp_id`. -/
def messages_save_delivery_status (db : DB) (wamid : String) (new_status : String) : DB :=
  { db with
    messages := db.messages.map
      (fun m => if m.whatsapp_id == wamid then { m with delivery_status := new_status } else m) }

/-! ## The asynchronous task layer (`chat/tasks.py`, `ai_bot/tasks.py`)

Side effects are recorded as an ordered trace of events, one event per
Python statement that persists a row, enqueues a Celery task or pushes to
the channel layer. -/

inductive Event
  | enqueue_process_webhook_payload (phone_number_id : String)
  | enqueue_process_incoming_message (wamid : String)
  | enqueue_process_status_update (wamid : String)
  | persist_incoming_message (wamid : String)
  | enqueue_process_ai_response (conversation_id : Nat)
  | persist_ai_message (message_id : Nat)
  | enqueue_send_whatsapp_message (message_id : Nat)
  | persist_delivery_status (wamid : String) (status : String)
  | channel_group_send (wamid : String) (status : String)
deriving DecidableEq

/-- The ambient effects a task run depends on: the clock, the id/uuid
generator, the AI-bot service (`AIBotService.is_enabled` /
`AIBotService.get_response`, which consult the account's `AIConfig` and
call the provider) and `download_whatsapp_media` (Meta's media download;
`none` models a download failure, which the task catches). -/
structure TaskEnv where
  now : Nat
  fresh_contact_id : Nat
  fresh_conversation_id : Nat
  fresh_message_id : Nat
  fresh_wamid : String
  ai_enabled : Nat → Bool
  ai_response : Nat → Option String
  download_media : String → Option String

/-- Outcome of one Celery task execution: the store after the run, the
event trace in execution order, and the exception the run raised
(`none` when it returned normally). -/
structure TaskRun where
  db : DB
  trace : List Event
  raised : Option String
deriving DecidableEq

/-- One entry of the webhook `messages` list: the dict fields
`process_incoming_message` reads.  `wa_type` holds
`message.get('type', 'text')` with the default already applied;
`text_body` holds `message.get('text', {}).get('body', '')`;
`caption` holds `media_info.get('caption', '')`;
`media_id` holds `media_info.get('id')`. -/
structure WebhookMessage where
  wa_from : String
  wa_id : String
  wa_type : String
  text_body : String
  caption : String
  media_id : Option String
deriving DecidableEq

/-- One entry of the webhook `statuses` list. -/
structure StatusUpdate where
  su_id : String
  su_status : String
deriving DecidableEq

def media_message_types : List String :=
  ["image", "video", "audio", "document", "sticker"]

/-- `chat.tasks.process_incoming_message` (tasks.py lines 311-395).
Looks up the account, `get_or_create`s the contact and conversation,
persists the incoming `Message` with `delivery_status='delivered'`,
bumps `conversation.last_message_at`, and finally enqueues
`process_ai_response` when the AI bot is enabled.  A duplicate
`whatsapp_id` makes `Message.objects.create` raise; the earlier
`get_or_create` saves are not rolled back (no enclosing transaction). -/
def process_incoming_message (env : TaskEnv) (db : DB)
    (message : WebhookMessage) (phone_number_id : String) : TaskRun :=
  match db.accounts.find? (fun a => a.phone_number_id == phone_number_id) with
  | none => ⟨db, [], none⟩
  | some account =>
      let sender_phone := message.wa_from
      let gc :=
        contact_get_or_create db env.fresh_contact_id account.id sender_phone sender_phone
      let contact := gc.1
      let db1 := gc.2.1
      let gv :=
        conversation_get_or_create db1 env.fresh_conversation_id account.id contact.id
      let conversation := gv.1
      let db2 := gv.2.1
      let msg_type := message.wa_type
      let msg_body :=
        if msg_type == "text" then message.text_body
        else if media_message_types.contains msg_type then message.caption
        else ""
      let media_url :=
        if media_message_types.contains msg_type then
          message.media_id.bind env.download_media
        else none
      match message_create db2
          ⟨env.fresh_message_id, conversation.id, message.wa_id, "incoming",
            msg_type, msg_body, media_url, "delivered"⟩ with
      | Except.error e => ⟨db2, [], some e⟩
      | Except.ok db3 =>
          let db4 := conversation_save_last_message_at db3 conversation.id env.now
          if env.ai_enabled conversation.id then
            ⟨db4, [Event.persist_incoming_message message.wa_id,
                   Event.enqueue_process_ai_response conversation.id], none⟩
          else
            ⟨db4, [Event.persist_incoming_message message.wa_id], none⟩

/-- `ai_bot.tasks.process_ai_response` (ai_bot/tasks.py lines 14-111).
Creates the outgoing AI `Message` (with a fresh `ai_…` placeholder
`whatsapp_id` and `delivery_status='sent'`) before enqueueing
`send_whatsapp_message`.  Every failure path is caught and reported as a
returned error dict, so the task never re-raises. -/
def process_ai_response (env : TaskEnv) (db : DB) (conversation_id : Nat) : TaskRun :=
  match db.conversations.find? (fun c => c.id == conversation_id) with
  | none => ⟨db, [], none⟩
  | some conversation =>
      if env.ai_enabled conversation.id then
        match env.ai_response conversation.id with
        | none => ⟨db, [], none⟩
        | some response_text =>
            match message_create db
                ⟨env.fresh_message_id, conversation.id, "ai_" ++ env.fresh_wamid,
                  "outgoing", "text", response_text, none, "sent"⟩ with
            | Except.error _ => ⟨db, [], none⟩
            | Except.ok db1 =>
                let db2 := conversation_save_last_message_at db1 conversation.id env.now
                ⟨db2, [Event.persist_ai_message env.fresh_message_id,
                       Event.enqueue_send_whatsapp_message env.fresh_message_id], none⟩
      else ⟨db, [], none⟩

/-- `chat.tasks.process_status_update` (tasks.py lines 445-502).
When a stored message matches the update's `whatsapp_id`, its
`delivery_status` is saved first and the channel-layer group send follows.
When no message matches, the code executes `raise self.retry(countdown=2,
max_retries=5)`; the task is declared `@shared_task(queue='messages')`
WITHOUT `bind=True`, so the name `self` is unbound and a `NameError` is
raised instead.  The surrounding `except Exception` handler then evaluates
`self.retry_exception`, raising the same `NameError` again, which
propagates out of the task. -/
def process_status_update (db : DB) (status_update : StatusUpdate) : TaskRun :=
  let whatsapp_id := status_update.su_id
  let new_status := status_update.su_status
  match db.messages.find? (fun m => m.whatsapp_id == whatsapp_id) with
  | some _message =>
      let db1 := messages_save_delivery_status db whatsapp_id new_status
      ⟨db1, [Event.persist_delivery_status whatsapp_id new_status,
             Event.channel_group_send whatsapp_id new_status], none⟩
  | none =>
      ⟨db, [], some "NameError: name 'self' is not defined"⟩

/-- Retry policy constants of `chat.tasks.send_whatsapp_message`:
`@shared_task(bind=True, queue='messages', max_retries=3)` with
`self.retry(exc=exc, countdown=30)` in its `except Exception` handler. -/
def send_whatsapp_message_max_retries : Nat := 3

def send_whatsapp_message_retry_countdown : Nat := 30

/-- Retry arguments the `process_status_update` source passes at its
message-not-found site: `self.retry(countdown=2, max_retries=5)`. -/
def process_status_update_retry_countdown : Nat := 2

def process_status_update_retry_max_retries : Nat := 5

/-- The webhook payload tree (`entry[].changes[].value.{messages,statuses}`). -/
structure WebhookValue where
  messages : List WebhookMessage
  statuses : List StatusUpdate
deriving DecidableEq

structure WebhookChange where
  value : WebhookValue
deriving DecidableEq

structure WebhookEntry where
  changes : List WebhookChange
deriving DecidableEq

structure WebhookPayload where
  entry : List WebhookEntry
deriving DecidableEq

/-- `chat.tasks.process_webhook_payload` (tasks.py lines 275-308): walks
the payload and enqueues `process_incoming_message` for each message and
`process_status_update` for each status update, in payload order. -/
def process_webhook_payload (payload : WebhookPayload) (_phone_number_id : String) :
    List Event :=
  payload.entry.flatMap (fun e =>
    e.changes.flatMap (fun change =>
      change.value.messages.map (fun m => Event.enqueue_process_incoming_message m.wa_id)
        ++ change.value.statuses.map (fun s => Event.enqueue_process_status_update s.su_id)))

/-! ## HTTP views (`config_api/views.py`, `chat/views.py`) -/

/-- A plain HTTP response: status code and, for the webhook GET echo, the
body (`HttpResponse(challenge)`; `challenge` is `None` when the query
parameter is absent). -/
structure HttpReply where
  status : Nat
  body : Option String
deriving DecidableEq

/-- `config_api.views.webhook`, GET branch (views.py lines 124-143).
Query parameters are `Option String` (`request.query_params.get` returns
`None` when absent).  `if mode == 'subscribe' and token:` — the token must
be present AND non-empty (Python truthiness). -/
def webhook_get (db : DB) (phone_number_id : String)
    (mode token challenge : Option String) : HttpReply :=
  match db.accounts.find? (fun a => a.phone_number_id == phone_number_id) with
  | none => ⟨404, some "Not Found"⟩
  | some account =>
      if mode == some "subscribe" && (token.getD "") != "" then
        if some account.webhook_verify_token == token then
          ⟨200, challenge⟩
        else
          ⟨403, some "Forbidden"⟩
      else
        ⟨400, some "Bad Request"⟩

/-- `config_api.views.webhook`, POST branch (views.py lines 145-150):
enqueues `process_webhook_payload` and answers 200, for any payload, as
long as an account with the `phone_number_id` exists. -/
def webhook_post (db : DB) (phone_number_id : String) (_payload : WebhookPayload) :
    HttpReply × List Event :=
  match db.accounts.find? (fun a => a.phone_number_id == phone_number_id) with
  | none => (⟨404, some "Not Found"⟩, [])
  | some _account =>
      (⟨200, none⟩, [Event.enqueue_process_webhook_payload phone_number_id])

/-- Result of a `chat` view call: the store afterwards, the HTTP status,
the created message serialized into the 201 body (when one was), and the
Celery tasks enqueued. -/
structure ViewRun where
  db : DB
  status : Nat
  created : Option Message
  trace : List Event
deriving DecidableEq

/-- `SendTextMessageSerializer`: `message = serializers.CharField(max_length=4096,
required=True)`.  DRF `CharField` trims surrounding whitespace by default
and rejects a missing, blank or over-long value with HTTP 400
(`is_valid(raise_exception=True)`). -/
def validate_send_text_body (request_message : Option String) : Option String :=
  match request_message with
  | none => none
  | some raw =>
      let text := py_strip raw
      if text == "" || text.data.length > 4096 then none else some text

/-- `chat.views.MessageViewSet.send_text` (views.py lines 155-196).
The serializer is validated BEFORE the conversation lookup, so an invalid
body yields 400 even when the conversation does not exist.  On success a
new outgoing text `Message` with `delivery_status='sent'` and a fresh
`local_…` `whatsapp_id` is created, `last_message_at` is bumped and
`send_whatsapp_message` is enqueued.  A `whatsapp_id` collision would make
`Message.objects.create` raise out of the view (HTTP 500). -/
def send_text (env : TaskEnv) (db : DB) (pk : Nat) (request_message : Option String) :
    ViewRun :=
  match validate_send_text_body request_message with
  | none => ⟨db, 400, none, []⟩
  | some text =>
      match db.conversations.find? (fun c => c.id == pk) with
      | none => ⟨db, 404, none, []⟩
      | some conversation =>
          let m : Message :=
            ⟨env.fresh_message_id, conversation.id, "local_" ++ env.fresh_wamid,
              "outgoing", "text", text, none, "sent"⟩
          match message_create db m with
          | Except.error _ => ⟨db, 500, none, []⟩
          | Except.ok db1 =>
              let db2 := conversation_save_last_message_at db1 conversation.id env.now
              ⟨db2, 201, some m, [Event.enqueue_send_whatsapp_message m.id]⟩

/-- Result of `ConversationViewSet.destroy`: the store, the surviving
media files, and the response payload
`{'status': 'deleted', 'conversation_id': …, 'deleted_files': …}`. -/
structure DestroyRun where
  db : DB
  files : List String
  status : Nat
  conversation_id : Option Nat
  deleted_files : Nat
deriving DecidableEq

/-- Path resolution inside `destroy`: `media_url.lstrip('/')`, then drop a
leading `media/`, then `os.path.join(settings.MEDIA_ROOT, relative_path)`. -/
def destroy_media_file_path (media_root : String) (media_url : String) : String :=
  let stripped := strOfList (media_url.data.dropWhile (fun c => c == '/'))
  let relative :=
    if str_starts "media/" stripped then strOfList (stripped.data.drop 6) else stripped
  media_root ++ "/" ++ relative

/-- `chat.views.ConversationViewSet.destroy` (views.py lines 62-103).
`get_object()` answers 404 when the conversation does not exist.
Otherwise every existing media file of the conversation's messages is
removed from disk and counted, the conversation row is deleted, and the
`on_delete=CASCADE` foreign key removes every `Message` of the
conversation.  Other conversations and their messages are untouched. -/
def conversation_destroy (db : DB) (files : List String) (media_root : String)
    (pk : Nat) : DestroyRun :=
  match db.conversations.find? (fun c => c.id == pk) with
  | none => ⟨db, files, 404, none, 0⟩
  | some conversation =>
      let messages_with_media :=
        (db.messages.filter (fun m => m.conversation == conversation.id)).filter
          (fun m => m.media_url.getD "" != "")
      let paths := messages_with_media.map
        (fun m => destroy_media_file_path media_root (m.media_url.getD ""))
      -- `if os.path.exists(file_path): os.remove(file_path); deleted_files += 1`,
      -- re-checking existence on every iteration, so a path shared by two
      -- messages is removed and counted once.
      let removal := paths.foldl
        (fun (acc : Nat × List String) p =>
          if acc.2.contains p then (acc.1 + 1, acc.2.filter (fun f => !(f == p)))
          else acc)
        (0, files)
      let deleted := removal.1
      let files1 := removal.2
      let db1 : DB :=
        { db with
          conversations := db.conversations.filter (fun c => !(c.id == pk)),
          messages := db.messages.filter (fun m => !(m.conversation == conversation.id)) }
      ⟨db1, files1, 200, some conversation.id, deleted⟩

/-! ## Template rendering (`chat/services.py`,
`WhatsAppNotificationService._render_template_body` / `_apply_parameters`) -/

/-- `named_values[p['parameter_name']] = val` on a Python dict: an update
in place when the key exists, an append otherwise (dicts preserve
insertion order). -/
def dict_upsert (d : List (String × String)) (k v : String) : List (String × String) :=
  if d.any (fun kv => kv.1 == k) then
    d.map (fun kv => if kv.1 == k then (k, v) else kv)
  else
    d ++ [(k, v)]

/-- One iteration of the classification loop of `_apply_parameters`
(services.py lines 325-335): keep `type == 'text'` entries, route a truthy
`parameter_name` into the named dict and the rest into the positional
list. -/
def classify_step (acc : List (String × String) × List String)
    (p : TemplateParameter) : List (String × String) × List String :=
  if p.ptype == "text" then
    match p.parameter_name with
    | some n => if n == "" then (acc.1, acc.2 ++ [p.text])
                else (dict_upsert acc.1 n p.text, acc.2)
    | none => (acc.1, acc.2 ++ [p.text])
  else acc

/-- The classification loop of `_apply_parameters` over the whole
`parameters` list. -/
def classify_parameters (params : List TemplateParameter) :
    List (String × String) × List String :=
  params.foldl classify_step ([], [])

/-- Replacement loops of `_apply_parameters` (services.py lines 337-343):
every named `{\x7b{key}\x7d}` placeholder is replaced first, then the
1-based positional `{\x7b{i}\x7d}` placeholders. -/
def replace_named (text : String) (named : List (String × String)) : String :=
  named.foldl (fun t kv => py_replace t ("\x7b\x7b" ++ kv.1 ++ "\x7d\x7d") kv.2) text

def replace_positional (text : String) (positional : List String) : String :=
  (positional.enum).foldl
    (fun t iv => py_replace t ("\x7b\x7b" ++ py_nat_str (iv.1 + 1) ++ "\x7d\x7d") iv.2) text

/-- `WhatsAppNotificationService._apply_parameters` (services.py lines
292-345). -/
def apply_parameters (text : String) (components : List TemplateComponent) : String :=
  match components.find? (fun c => c.ctype == "body") with
  | none => text
  | some sent_body =>
      if sent_body.parameters.isEmpty then text
      else
        let cls := classify_parameters sent_body.parameters
        replace_positional (replace_named text cls.1) cls.2

/-- `WhatsAppNotificationService._extract_body_component` (services.py
lines 270-290). -/
def extract_body_component (components : List TemplateComponent) :
    Option TemplateComponent :=
  components.find? (fun c => c.ctype == "BODY")

/-- `WhatsAppNotificationService._render_template_body` (services.py lines
209-268): look the template up by `(account, name, language)` with
`status='APPROVED'`, take its BODY component's text and apply the
submitted parameters; every failure returns the fallback
`'[Template: <name>]'`. -/
def render_template_body (db : DB) (account : Nat)
    (template_name template_language : String)
    (components : List TemplateComponent) : String :=
  let fallback_body := "[Template: " ++ template_name ++ "]"
  match db.templates.find? (fun t =>
      t.account == account && t.name == template_name &&
      t.language == template_language && t.status == "APPROVED") with
  | none => fallback_body
  | some template =>
      match extract_body_component template.components with
      | none => fallback_body
      | some body_component =>
          let body_text := body_component.text.getD ""
          if body_text == "" then fallback_body
          else apply_parameters body_text components

/-! ## Message pagination (`chat/pagination.py` with DRF
`PageNumberPagination` semantics) -/

/-- `MessagePagination` class attributes. -/
def message_page_size : Nat := 50

def message_max_page_size : Nat := 100

/-- DRF `PageNumberPagination.get_page_size` with `_positive_int(value,
strict=True, cutoff=self.max_page_size)`: a missing or unparsable or
non-positive value falls back to `page_size = 50`; a parsed value is
capped at `max_page_size = 100`. -/
def get_page_size (page_size_param : Option String) : Nat :=
  match page_size_param with
  | none => message_page_size
  | some s =>
      match py_int? s with
      | none => message_page_size
      | some v =>
          if v ≤ 0 then message_page_size
          else min v.toNat message_max_page_size

/-- The page Django's `Paginator` hands back: the slice
`[(number-1)*per_page : number*per_page]` of the object list. -/
def paginate_page (per_page : Nat) (number : Nat) (items : List Message) :
    List Message :=
  (items.drop ((number - 1) * per_page)).take per_page

/-! ## Media conversion (`common/utils.py: convert_media_for_whatsapp`)

The `os.path` calls of the function follow `posixpath` semantics; they are
modelled here on the character list underlying a `String`. -/

namespace PyPath

/-- `str.rstrip('/')`. -/
def rstripSlashes (l : List Char) : List Char :=
  (l.reverse.dropWhile (fun c => c == '/')).reverse

/-- `posixpath.basename`: the segment after the last `'/'`. -/
def basenameChars (l : List Char) : List Char :=
  (l.reverse.takeWhile (fun c => c != '/')).reverse

/-- The `head = p[:p.rfind('/') + 1]` slice of `posixpath.dirname`. -/
def headChars (l : List Char) : List Char :=
  l.take (l.length - (basenameChars l).length)

/-- `posixpath.dirname`: the head slice, right-stripped of slashes unless
it is empty or consists of slashes only. -/
def dirnameChars (l : List Char) : List Char :=
  let head := headChars l
  if head.isEmpty || head.all (fun c => c == '/') then head
  else rstripSlashes head

def basename (s : String) : String := strOfList (basenameChars s.data)

def dirname (s : String) : String := strOfList (dirnameChars s.data)

/-- `posixpath.join` restricted to two arguments. -/
def join (a b : String) : String :=
  if str_starts "/" b then b
  else if a == "" || str_ends "/" a then a ++ b
  else a ++ "/" ++ b

/-- The stem of `posixpath.splitext`, applied (as the source does) to a
basename: the text before the last `'.'`, except that a name whose
characters before that dot are all dots (or absent) has no extension. -/
def splitextStem (b : List Char) : List Char :=
  if b.contains '.' then
    let after_len := (b.reverse.takeWhile (fun c => c != '.')).length
    let pre := b.take (b.length - after_len - 1)
    if pre.any (fun c => c != '.') then pre else b
  else b

end PyPath

/-- The conversion test of `convert_media_for_whatsapp`:
`mimetypes.guess_type` lowercases the extension and maps `.webm` to
`'video/webm'`; the explicit fallback fires on a literal `.webm` suffix;
`mime_type in ['video/webm', 'audio/webm']` therefore reduces to a
case-insensitive `.webm` suffix test. -/
def mime_is_webm (p : String) : Bool := str_ends ".webm" (str_lower p)

/-- `settings.MEDIA_URL` (config/settings.py line 152). -/
def MEDIA_URL : String := "/media/"

/-- The ambient filesystem and toolchain of `convert_media_for_whatsapp`:
`settings.MEDIA_ROOT`, `os.path.exists`, and whether the `ffmpeg`
subprocess exits successfully AND leaves the output file on disk (a
failed run raises `CalledProcessError`, which the function catches). -/
structure MediaEnv where
  media_root : String
  fs_exists : String → Bool
  ffmpeg_creates_output : Bool

/-- The `full_path` resolution at the top of `convert_media_for_whatsapp`:
strip `MEDIA_URL` and re-root under `MEDIA_ROOT`, or re-root a relative
path, or keep an absolute path. -/
def resolve_media_path (env : MediaEnv) (media_path : String) : String :=
  if str_starts MEDIA_URL media_path then
    PyPath.join env.media_root (strOfList (media_path.data.drop MEDIA_URL.data.length))
  else if !(str_starts "/" media_path) then PyPath.join env.media_root media_path
  else media_path

/-- `common.utils.convert_media_for_whatsapp` (utils.py lines 10-110). -/
def convert_media_for_whatsapp (env : MediaEnv) (media_path : String) : String :=
  let from_url := str_starts MEDIA_URL media_path
  let relative_path := strOfList (media_path.data.drop MEDIA_URL.data.length)
  let full_path := resolve_media_path env media_path
  if !(env.fs_exists full_path) then media_path
  else if mime_is_webm full_path then
    let directory := PyPath.dirname full_path
    let filename := strOfList (PyPath.splitextStem (PyPath.basename full_path).data)
    let output_filename := filename ++ ".ogg"
    let output_path := PyPath.join directory output_filename
    if env.ffmpeg_creates_output then
      if from_url then
        let rel_dir := PyPath.dirname relative_path
        let new_rel_path := PyPath.join rel_dir output_filename
        PyPath.join MEDIA_URL new_rel_path
      else if !(str_starts "/" media_path) then
        let rel_dir := PyPath.dirname media_path
        PyPath.join rel_dir output_filename
      else output_path
    else media_path
  else media_path

/-! ## Specification-side definitions

Definitions in this section are written from the wording of the
specification's claims (never from the source); the theorems below compare
them with the source-translated operations above. -/

/-- Adjacent repeated slashes (a path with an empty component). -/
def twoSlashes : List Char → Bool
  | [] => false
  | [_] => false
  | c :: d :: rest => (c == '/' && d == '/') || twoSlashes (d :: rest)

/-- The claim's "the same path with its file extension replaced by
`.ogg`", for a path carrying a 5-character extension such as `.webm`. -/
def ext_replaced_ogg (p : String) : String :=
  strOfList (p.data.take (p.data.length - 5)) ++ ".ogg"

/-- Claim C10 as stated: `convert_media_for_whatsapp` always returns
either the input path unchanged or the same path with its extension
replaced by `.ogg`. -/
def convert_media_claim : Prop :=
  ∀ (env : MediaEnv) (p : String),
    convert_media_for_whatsapp env p = p ∨
    convert_media_for_whatsapp env p = ext_replaced_ogg p

/-- The four delivery-status lifecycle labels of
`Message.DeliveryStatus`. -/
def FourStatus (s : String) : Prop :=
  s = "sent" ∨ s = "delivered" ∨ s = "read" ∨ s = "failed"

/-- Every stored message carries one of the four lifecycle labels. -/
def MessagesStatusOk (db : DB) : Prop :=
  ∀ m ∈ db.messages, FourStatus m.delivery_status

/-- Claim C2 as stated: every operation keeps every stored message's
`delivery_status` within the four labels, and a Meta status-update webhook
only ever touches the `delivery_status` of an outgoing message. -/
def delivery_status_claim : Prop :=
  (∀ (db : DB) (upd : StatusUpdate), MessagesStatusOk db →
      MessagesStatusOk (process_status_update db upd).db) ∧
  (∀ (db : DB) (upd : StatusUpdate) (m : Message),
      m ∈ (process_status_update db upd).db.messages →
      m.direction = "incoming" → m ∈ db.messages)

/-- Claim C3 as stated: a `send_text` POST naming a missing conversation
answers 404 with the message store unchanged; one naming an existing
conversation with a valid `message` field answers 201, creating an
outgoing text message with `delivery_status='sent'` and bumping
`last_message_at`. -/
def send_text_claim : Prop :=
  ∀ (env : TaskEnv) (db : DB) (pk : Nat) (req : Option String),
    (db.conversations.find? (fun c => c.id == pk) = none →
      (send_text env db pk req).status = 404 ∧
      (send_text env db pk req).db.messages = db.messages) ∧
    (∀ conversation text,
      db.conversations.find? (fun c => c.id == pk) = some conversation →
      validate_send_text_body req = some text →
      (send_text env db pk req).status = 201 ∧
      (∃ m, (send_text env db pk req).created = some m ∧
        m.direction = "outgoing" ∧ m.message_type = "text" ∧
        m.delivery_status = "sent" ∧
        (send_text env db pk req).db.messages = db.messages ++ [m]) ∧
      (send_text env db pk req).db.conversations =
        db.conversations.map (fun c =>
          if c.id == conversation.id then { c with last_message_at := some env.now } else c))

/-- Claim C8 as stated: webhook GET verification with 404 for an unknown
account, challenge echo or 403 when `hub.mode = 'subscribe'` and
`hub.verify_token` is present, 400 otherwise. -/
def webhook_get_claim : Prop :=
  ∀ (db : DB) (pid : String) (mode token challenge : Option String),
    (db.accounts.find? (fun a => a.phone_number_id == pid) = none →
      (webhook_get db pid mode token challenge).status = 404) ∧
    (∀ account,
      db.accounts.find? (fun a => a.phone_number_id == pid) = some account →
      ((mode = some "subscribe" ∧ token ≠ none) →
        ((token = some account.webhook_verify_token →
            webhook_get db pid mode token challenge = ⟨200, challenge⟩) ∧
         (token ≠ some account.webhook_verify_token →
            (webhook_get db pid mode token challenge).status = 403))) ∧
      (¬ (mode = some "subscribe" ∧ token ≠ none) →
        (webhook_get db pid mode token challenge).status = 400))

/-- The uniqueness constraints of the data model: at most one `Contact`
per `(account, phone_number)`, one `Conversation` per `(account,
contact)`, one `Message` per `whatsapp_id`. -/
def UniquenessInvariant (db : DB) : Prop :=
  db.contacts.Pairwise
    (fun a b => ¬(a.account = b.account ∧ a.phone_number = b.phone_number)) ∧
  db.conversations.Pairwise
    (fun a b => ¬(a.account = b.account ∧ a.contact = b.contact)) ∧
  db.messages.Pairwise (fun a b => a.whatsapp_id ≠ b.whatsapp_id)

/-- The claim's reading of the named template parameters: the submitted
text parameters carrying a (truthy) `parameter_name`, as
(name, text) pairs. -/
def spec_named_pairs (params : List TemplateParameter) : List (String × String) :=
  params.filterMap (fun p =>
    if p.ptype == "text" then
      match p.parameter_name with
      | some n => if n == "" then none else some (n, p.text)
      | none => none
    else none)

/-- The claim's reading of the positional template parameters: the texts
of the submitted text parameters without a (truthy) name, in order. -/
def spec_positional_texts (params : List TemplateParameter) : List String :=
  params.filterMap (fun p =>
    if p.ptype == "text" then
      match p.parameter_name with
      | some n => if n == "" then some p.text else none
      | none => some p.text
    else none)

/-- The claim's substitution: each named placeholder replaced by the text
of the parameter of that name, then each 1-based positional placeholder
replaced by the matching positional text. -/
def spec_substitute (text : String) (named : List (String × String))
    (positional : List String) : String :=
  replace_positional (replace_named text named) positional

/-! ## Concrete sample data used by witnesses and counterexamples -/

def env_sample : TaskEnv :=
  ⟨100, 11, 21, 31, "u1", fun _ => true, fun _ => some "AI says hi", fun _ => none⟩

def env_sample_no_ai : TaskEnv :=
  ⟨100, 11, 21, 31, "u1", fun _ => false, fun _ => none, fun _ => none⟩

def db_empty : DB := ⟨[], [], [], [], []⟩

def db_one_account : DB := ⟨[⟨1, "p1", "secret"⟩], [], [], [], []⟩

def db_one_conversation : DB :=
  ⟨[⟨1, "p1", "secret"⟩], [⟨5, 1, "777", "c"⟩], [⟨9, 1, 5, "open", none⟩], [], []⟩

def db_one_incoming_message : DB :=
  ⟨[], [], [⟨9, 1, 5, "open", none⟩],
    [⟨1, 9, "w1", "incoming", "text", "hi", none, "delivered"⟩], []⟩

def db_two_conversations : DB :=
  ⟨[], [], [⟨9, 1, 5, "open", none⟩, ⟨10, 1, 6, "open", none⟩],
    [⟨1, 9, "w1", "incoming", "text", "", some "/media/whatsapp/a.jpg", "delivered"⟩,
     ⟨2, 10, "w2", "incoming", "text", "", none, "delivered"⟩], []⟩

def db_one_template : DB :=
  ⟨[], [], [], [],
    [⟨1, 1, "hello", "es", "APPROVED",
      [⟨"BODY", some "Hola \x7b\x7bname\x7d\x7d, pedido \x7b\x7b1\x7d\x7d", []⟩]⟩]⟩

def media_env_all_files : MediaEnv := ⟨"/app/media", fun _ => true, true⟩

def media_env_test_files : MediaEnv :=
  ⟨"/app/media",
    fun p => p == "/app/media/whatsapp/uploads/test.webm" ||
             p == "/app/media/whatsapp/uploads/test.ogg", true⟩

/-! ## Theorems settling the claims -/

/-- C4.  `send_whatsapp_message` retries at most 3 times with a 30-second
countdown, as claimed.  The claimed retry behaviour of
`process_status_update` (countdown 2, at most 5 retries when no stored
message matches the `whatsapp_id`) is what the source spells out at its
retry site, but the task is declared without `bind=True`, so executing
that site raises `NameError: name 'self' is not defined` instead of
scheduling a retry, and the store is left unchanged: evaluated here at a
status update whose `whatsapp_id` matches no stored message. -/
theorem C4_retry_policy_eval :
    send_whatsapp_message_max_retries = 3 ∧
    send_whatsapp_message_retry_countdown = 30 ∧
    process_status_update_retry_countdown = 2 ∧
    process_status_update_retry_max_retries = 5 ∧
    (process_status_update db_empty ⟨"wamid.unknown", "delivered"⟩).raised =
      some "NameError: name 'self' is not defined" ∧
    (process_status_update db_empty ⟨"wamid.unknown", "delivered"⟩).db = db_empty ∧
    (process_status_update db_empty ⟨"wamid.unknown", "delivered"⟩).trace = [] := by
  refine ⟨rfl, rfl, rfl, rfl, ?_, ?_, ?_⟩ <;> decide

/-- C9.  Every page of the message list holds at most 100 messages: the
default page size is 50, and a `page_size` query parameter parsing to a
value above 100 is capped at 100. -/
theorem C9_page_size_bound :
    (∀ (q : Option String) (number : Nat) (msgs : List Message),
        (paginate_page (get_page_size q) number msgs).length ≤ 100) ∧
    get_page_size none = 50 ∧
    (∀ (s : String) (v : Int), py_int? s = some v → 100 < v →
        get_page_size (some s) = 100) := by
  refine ⟨?_, rfl, ?_⟩
  · intro q number msgs
    have h1 : get_page_size q ≤ 100 := by
      unfold get_page_size
      split
      · decide
      · split
        · decide
        · split
          · decide
          · simp only [message_max_page_size]
            exact Nat.min_le_right _ _
    calc (paginate_page (get_page_size q) number msgs).length
        ≤ get_page_size q := List.length_take_le _ _
      _ ≤ 100 := h1
  · intro s v hp hv
    have hv0 : ¬ v ≤ 0 := by omega
    have h100 : (100 : Nat) ≤ v.toNat := by omega
    simp only [get_page_size, hp, hv0, if_false, message_max_page_size]
    exact Nat.min_eq_right h100

/-- C9 witness: the bound and the cap at the concrete query value 500. -/
theorem C9_page_size_bound_witness :
    (paginate_page (get_page_size (some "500")) 1 []).length ≤ 100 ∧
    get_page_size (some "500") = 100 :=
  ⟨C9_page_size_bound.1 (some "500") 1 [],
   C9_page_size_bound.2.2 "500" 500 (by decide) (by decide)⟩

/-- C8 counterexample.  The claim promises a 403 whenever the account
exists, `hub.mode = 'subscribe'`, `hub.verify_token` is present and the
token differs from the stored one; but the view tests the token with
Python truthiness, so a present-but-empty `hub.verify_token=` yields 400
(`if mode == 'subscribe' and token:`), refuting the claim at that
input. -/
theorem C8_counterexample : ¬ webhook_get_claim := by
  intro h
  have h2 := ((h db_one_account "p1" (some "subscribe") (some "") none).2
      ⟨1, "p1", "secret"⟩ (by decide)).1 ⟨rfl, by decide⟩
  exact absurd (h2.2 (by decide)) (by decide)

/-- C8 (amended: `hub.verify_token` present AND non-empty).  Webhook GET:
404 when no account matches the `phone_number_id`; with a matching
account, `hub.mode = 'subscribe'` and a non-empty token, the response
echoes `hub.challenge` with 200 on a token match and is 403 otherwise;
every other combination gets 400. -/
theorem C8_webhook_verification :
    ∀ (db : DB) (pid : String) (mode token challenge : Option String),
      (db.accounts.find? (fun a => a.phone_number_id == pid) = none →
        (webhook_get db pid mode token challenge).status = 404) ∧
      (∀ account,
        db.accounts.find? (fun a => a.phone_number_id == pid) = some account →
        (∀ t, mode = some "subscribe" → token = some t → t ≠ "" →
          ((t = account.webhook_verify_token →
              webhook_get db pid mode token challenge = ⟨200, challenge⟩) ∧
           (t ≠ account.webhook_verify_token →
              (webhook_get db pid mode token challenge).status = 403))) ∧
        (¬ (mode = some "subscribe" ∧ ∃ t, token = some t ∧ t ≠ "") →
          (webhook_get db pid mode token challenge).status = 400)) := by
  intro db pid mode token challenge
  constructor
  · intro h
    simp [webhook_get, h]
  · intro account hacc
    constructor
    · intro t hm ht hne
      subst hm
      subst ht
      constructor
      · intro heq
        subst heq
        simp [webhook_get, hacc, bne_iff_ne, hne]
      · intro hneq
        have : (some account.webhook_verify_token == some t) = false := by
          simp [Ne.symm hneq]
        simp [webhook_get, hacc, bne_iff_ne, hne, this]
    · intro hn
      have hguard : (mode == some "subscribe" && (token.getD "" != "")) = false := by
        by_cases hm : mode = some "subscribe"
        · subst hm
          cases token with
          | none => simp
          | some t =>
              by_cases hte : t = ""
              · subst hte; simp
              · exact absurd ⟨rfl, t, rfl, hte⟩ hn
        · have : (mode == some "subscribe") = false := by
            simp [hm]
          simp [this]
      simp [webhook_get, hacc, hguard]

/-- C8 witness: the amended theorem applied at a matching token, a
mismatched token and an unknown account. -/
theorem C8_webhook_verification_witness :
    webhook_get db_one_account "p1" (some "subscribe") (some "secret") (some "ch")
      = ⟨200, some "ch"⟩ ∧
    (webhook_get db_one_account "p1" (some "subscribe") (some "bad") (some "ch")).status
      = 403 ∧
    (webhook_get db_empty "p1" (some "subscribe") (some "secret") none).status = 404 :=
  ⟨(((C8_webhook_verification db_one_account "p1" (some "subscribe") (some "secret")
        (some "ch")).2 ⟨1, "p1", "secret"⟩ (by decide)).1 "secret" rfl rfl
        (by decide)).1 rfl,
   (((C8_webhook_verification db_one_account "p1" (some "subscribe") (some "bad")
        (some "ch")).2 ⟨1, "p1", "secret"⟩ (by decide)).1 "bad" rfl rfl
        (by decide)).2 (by decide),
   (C8_webhook_verification db_empty "p1" (some "subscribe") (some "secret") none).1
     (by decide)⟩

/-- C3 counterexample.  The view validates the request body BEFORE the
conversation lookup (`serializer.is_valid(raise_exception=True)` precedes
`Conversation.objects.get`), so a POST without a valid `message` field
aimed at a missing conversation answers 400, not the 404 the claim
promises unconditionally: refuted at an empty store with an absent
`message` field. -/
theorem C3_counterexample : ¬ send_text_claim := by
  intro h
  exact absurd ((h env_sample db_empty 1 none).1 (by decide)).1 (by decide)

/-- C3 (amended: for requests whose body passes `message` validation; a
body failing validation is answered 400 before the lookup).  With a valid
body: 404 and an unchanged store when the conversation is missing;
otherwise (with the generated `local_…` id fresh, as `uuid4` guarantees)
201 with the created outgoing text message whose `delivery_status` is
`'sent'`, the store extended by exactly that message, `last_message_at`
updated and the send task enqueued. -/
theorem C3_send_text :
    ∀ (env : TaskEnv) (db : DB) (pk : Nat) (req : Option String) (text : String),
      validate_send_text_body req = some text →
      ((db.conversations.find? (fun c => c.id == pk) = none →
          (send_text env db pk req).status = 404 ∧ (send_text env db pk req).db = db) ∧
       (∀ conversation,
          db.conversations.find? (fun c => c.id == pk) = some conversation →
          (∀ m ∈ db.messages, m.whatsapp_id ≠ "local_" ++ env.fresh_wamid) →
          (send_text env db pk req).status = 201 ∧
          (send_text env db pk req).created =
            some ⟨env.fresh_message_id, conversation.id, "local_" ++ env.fresh_wamid,
                  "outgoing", "text", text, none, "sent"⟩ ∧
          (send_text env db pk req).db.messages =
            db.messages ++ [⟨env.fresh_message_id, conversation.id,
              "local_" ++ env.fresh_wamid, "outgoing", "text", text, none, "sent"⟩] ∧
          (send_text env db pk req).db.conversations =
            db.conversations.map (fun c =>
              if c.id == conversation.id then { c with last_message_at := some env.now }
              else c) ∧
          (send_text env db pk req).trace =
            [Event.enqueue_send_whatsapp_message env.fresh_message_id])) := by
  intro env db pk req text hval
  constructor
  · intro hnone
    constructor <;> simp [send_text, hval, hnone]
  · intro conversation hconv hfresh
    have hany : (db.messages.any
        (fun x => x.whatsapp_id == "local_" ++ env.fresh_wamid)) = false := by
      rw [List.any_eq_false]
      intro x hx
      simpa using hfresh x hx
    refine ⟨?_, ?_, ?_, ?_, ?_⟩ <;>
      simp [send_text, hval, hconv, message_create, hany,
        conversation_save_last_message_at]

/-- C3 witness: the amended theorem applied at a valid body against a
missing and an existing conversation. -/
theorem C3_send_text_witness :
    ((send_text env_sample db_empty 1 (some "hola")).status = 404 ∧
      (send_text env_sample db_empty 1 (some "hola")).db = db_empty) ∧
    (send_text env_sample db_one_conversation 9 (some " hola ")).status = 201 :=
  ⟨(C3_send_text env_sample db_empty 1 (some "hola") "hola" (by decide)).1 (by decide),
   ((C3_send_text env_sample db_one_conversation 9 (some " hola ") "hola"
      (by decide)).2 ⟨9, 1, 5, "open", none⟩ (by decide) (by decide)).1⟩

/-- Helper: the sequential exists-check-then-remove loop of `destroy`
keeps the disk duplicate-free and removes exactly as many files as it
counts. -/
theorem destroy_removal_fold (paths : List String) :
    ∀ (n : Nat) (fs : List String), fs.Nodup →
      (paths.foldl (fun (acc : Nat × List String) p =>
          if acc.2.contains p then (acc.1 + 1, acc.2.filter (fun f => !(f == p)))
          else acc) (n, fs)).2.Nodup ∧
      fs.length + n =
        (paths.foldl (fun (acc : Nat × List String) p =>
          if acc.2.contains p then (acc.1 + 1, acc.2.filter (fun f => !(f == p)))
          else acc) (n, fs)).2.length +
        (paths.foldl (fun (acc : Nat × List String) p =>
          if acc.2.contains p then (acc.1 + 1, acc.2.filter (fun f => !(f == p)))
          else acc) (n, fs)).1 := by
  induction paths with
  | nil => intro n fs h; exact ⟨h, rfl⟩
  | cons p ps ih =>
      intro n fs h
      simp only [List.foldl_cons]
      by_cases hc : fs.contains p
      · have hmem : p ∈ fs := by simpa using hc
        have hfe : fs.filter (fun f => !(f == p)) = fs.erase p := by
          rw [List.Nodup.erase_eq_filter h]
          apply List.filter_congr
          intro f _
          by_cases hf : f = p
          · subst hf; simp
          · have hb : (f == p) = false := beq_eq_false_iff_ne.mpr hf
            simp [bne, hb]
        have hlen : (fs.filter (fun f => !(f == p))).length + 1 = fs.length := by
          rw [hfe, List.length_erase_of_mem hmem]
          have : 1 ≤ fs.length := List.length_pos_of_mem hmem
          omega
        have hnd : (fs.filter (fun f => !(f == p))).Nodup := List.Nodup.filter _ h
        have := ih (n + 1) (fs.filter (fun f => !(f == p))) hnd
        simp only [hc, if_true]
        exact ⟨this.1, by omega⟩
      · have : (fs.contains p) = false := by
          exact Bool.not_eq_true _ ▸ (by simpa using hc)
        simp only [this, if_false]
        exact ih n fs h

/-- C7.  Deleting an existing conversation answers 200 carrying that
conversation's id and the deleted-media count, removes the conversation
and exactly the messages belonging to it (the `on_delete=CASCADE` ORM
semantics), leaves every other table row untouched, and physically
removes from disk exactly as many files as the count reports. -/
theorem C7_destroy_cascade :
    ∀ (db : DB) (files : List String) (root : String) (pk : Nat)
      (conversation : Conversation),
      db.conversations.find? (fun c => c.id == pk) = some conversation →
      files.Nodup →
      (conversation_destroy db files root pk).status = 200 ∧
      (conversation_destroy db files root pk).conversation_id = some pk ∧
      (∀ c, c ∈ (conversation_destroy db files root pk).db.conversations ↔
          c ∈ db.conversations ∧ c.id ≠ pk) ∧
      (∀ m, m ∈ (conversation_destroy db files root pk).db.messages ↔
          m ∈ db.messages ∧ m.conversation ≠ pk) ∧
      (conversation_destroy db files root pk).db.accounts = db.accounts ∧
      (conversation_destroy db files root pk).db.contacts = db.contacts ∧
      (conversation_destroy db files root pk).db.templates = db.templates ∧
      files.length =
        (conversation_destroy db files root pk).files.length +
        (conversation_destroy db files root pk).deleted_files := by
  intro db files root pk conversation hfind hnd
  have hid : conversation.id = pk := by
    have := List.find?_some hfind
    simpa using this
  refine ⟨?_, ?_, ?_, ?_, ?_, ?_, ?_, ?_⟩
  · simp [conversation_destroy, hfind]
  · simp [conversation_destroy, hfind, hid]
  · intro c
    simp [conversation_destroy, hfind, List.mem_filter]
  · intro m
    simp [conversation_destroy, hfind, List.mem_filter, hid]
  · simp [conversation_destroy, hfind]
  · simp [conversation_destroy, hfind]
  · simp [conversation_destroy, hfind]
  · have := (destroy_removal_fold
      (((db.messages.filter (fun m => m.conversation == conversation.id)).filter
          (fun m => m.media_url.getD "" != "")).map
        (fun m => destroy_media_file_path root (m.media_url.getD "")))
      0 files hnd).2
    simpa [conversation_destroy, hfind] using this

/-- C7 witness: deleting conversation 9 removes it, its message and its
media file, leaving conversation 10 and its message alone. -/
theorem C7_destroy_cascade_witness :
    (conversation_destroy db_two_conversations ["/app/media/whatsapp/a.jpg"]
        "/app/media" 9).status = 200 ∧
    (⟨2, 10, "w2", "incoming", "text", "", none, "delivered"⟩ ∈
        (conversation_destroy db_two_conversations ["/app/media/whatsapp/a.jpg"]
          "/app/media" 9).db.messages ↔
      (⟨2, 10, "w2", "incoming", "text", "", none, "delivered"⟩ : Message) ∈
          db_two_conversations.messages ∧ (10 : Nat) ≠ 9) :=
  ⟨(C7_destroy_cascade db_two_conversations ["/app/media/whatsapp/a.jpg"] "/app/media" 9
      ⟨9, 1, 5, "open", none⟩ (by decide) (by decide)).1,
   (C7_destroy_cascade db_two_conversations ["/app/media/whatsapp/a.jpg"] "/app/media" 9
      ⟨9, 1, 5, "open", none⟩ (by decide) (by decide)).2.2.2.1
     ⟨2, 10, "w2", "incoming", "text", "", none, "delivered"⟩⟩

/-- Helper: nothing sits inside an empty trace. -/
theorem append_cons_ne_nil {α : Type} {l1 l2 : List α} {e : α} :
    l1 ++ e :: l2 ≠ [] := by
  cases l1 <;> simp

/-- Helper: locating an element inside a one-event trace. -/
theorem append_cons_eq_single {α : Type} {l1 l2 : List α} {e a : α}
    (h : l1 ++ e :: l2 = [a]) : l1 = [] ∧ e = a ∧ l2 = [] := by
  cases l1 with
  | nil => simp at h; exact ⟨rfl, h.1, h.2⟩
  | cons x xs => simp at h

/-- Helper: locating an element inside a two-event trace. -/
theorem append_cons_eq_pair {α : Type} {l1 l2 : List α} {e a b : α}
    (h : l1 ++ e :: l2 = [a, b]) :
    (l1 = [] ∧ e = a ∧ l2 = [b]) ∨ (l1 = [a] ∧ e = b ∧ l2 = []) := by
  cases l1 with
  | nil => simp at h; exact Or.inl ⟨rfl, h.1, h.2⟩
  | cons x xs =>
      simp at h
      obtain ⟨hx, h2⟩ := h
      obtain ⟨h3, h4, h5⟩ := append_cons_eq_single h2
      exact Or.inr ⟨by rw [hx, h3], h4, h5⟩

/-- C1.  The pipeline stages run in the stated order: the webhook POST
enqueues the payload-processing task; in `process_incoming_message` every
enqueue of the AI-reply task is preceded in the trace by the persisted
incoming message; in `process_ai_response` every enqueue of the outbound
send is preceded by the persisted AI message; in `process_status_update`
every channel-layer push is preceded by the persisted delivery status. -/
theorem C1_pipeline_stage_order :
    (∀ (db : DB) (pid : String) (payload : WebhookPayload)
        (account : WhatsAppAccount),
        db.accounts.find? (fun a => a.phone_number_id == pid) = some account →
        (webhook_post db pid payload).1.status = 200 ∧
        (webhook_post db pid payload).2 = [Event.enqueue_process_webhook_payload pid]) ∧
    (∀ (env : TaskEnv) (db : DB) (msg : WebhookMessage) (pid : String)
        (l1 l2 : List Event) (cid : Nat),
        (process_incoming_message env db msg pid).trace =
          l1 ++ Event.enqueue_process_ai_response cid :: l2 →
        Event.persist_incoming_message msg.wa_id ∈ l1) ∧
    (∀ (env : TaskEnv) (db : DB) (cid : Nat) (l1 l2 : List Event) (mid : Nat),
        (process_ai_response env db cid).trace =
          l1 ++ Event.enqueue_send_whatsapp_message mid :: l2 →
        Event.persist_ai_message mid ∈ l1) ∧
    (∀ (db : DB) (upd : StatusUpdate) (l1 l2 : List Event) (w s : String),
        (process_status_update db upd).trace =
          l1 ++ Event.channel_group_send w s :: l2 →
        Event.persist_delivery_status upd.su_id upd.su_status ∈ l1) := by
  refine ⟨?_, ?_, ?_, ?_⟩
  · intro db pid payload account hacc
    exact ⟨by simp [webhook_post, hacc], by simp [webhook_post, hacc]⟩
  · intro env db msg pid l1 l2 cid h
    unfold process_incoming_message at h
    dsimp only at h
    split at h
    · exact absurd h.symm append_cons_ne_nil
    · split at h
      · exact absurd h.symm append_cons_ne_nil
      · split at h
        · rcases append_cons_eq_pair h.symm with ⟨-, he, -⟩ | ⟨h1, -, -⟩
          · exact absurd he (by simp)
          · rw [h1]; exact List.mem_singleton.mpr rfl
        · obtain ⟨-, he, -⟩ := append_cons_eq_single h.symm
          exact absurd he (by simp)
  · intro env db cid l1 l2 mid h
    unfold process_ai_response at h
    split at h
    · exact absurd h.symm append_cons_ne_nil
    · split at h
      · split at h
        · exact absurd h.symm append_cons_ne_nil
        · split at h
          · exact absurd h.symm append_cons_ne_nil
          · rcases append_cons_eq_pair h.symm with ⟨-, he, -⟩ | ⟨h1, he, -⟩
            · exact absurd he (by simp)
            · have hm : mid = env.fresh_message_id := by
                simpa using he
              rw [h1, hm]
              exact List.mem_singleton.mpr rfl
      · exact absurd h.symm append_cons_ne_nil
  · intro db upd l1 l2 w s h
    unfold process_status_update at h
    dsimp only at h
    split at h
    · rcases append_cons_eq_pair h.symm with ⟨-, he, -⟩ | ⟨h1, -, -⟩
      · exact absurd he (by simp)
      · rw [h1]; exact List.mem_singleton.mpr rfl
    · exact absurd h.symm append_cons_ne_nil

/-- C1 witness: each ordering conjunct applied to a concrete run whose
trace exhibits the stage pair. -/
theorem C1_pipeline_stage_order_witness :
    (webhook_post db_one_account "p1" ⟨[]⟩).2 =
      [Event.enqueue_process_webhook_payload "p1"] ∧
    Event.persist_incoming_message "wam1" ∈ [Event.persist_incoming_message "wam1"] ∧
    Event.persist_ai_message 31 ∈ [Event.persist_ai_message 31] ∧
    Event.persist_delivery_status "w1" "read" ∈
      [Event.persist_delivery_status "w1" "read"] :=
  ⟨(C1_pipeline_stage_order.1 db_one_account "p1" ⟨[]⟩ ⟨1, "p1", "secret"⟩ (by decide)).2,
   C1_pipeline_stage_order.2.1 env_sample db_one_account
     ⟨"777", "wam1", "text", "hey", "", none⟩ "p1"
     [Event.persist_incoming_message "wam1"] [] 21 (by decide),
   C1_pipeline_stage_order.2.2.1 env_sample
     (process_incoming_message env_sample db_one_account
       ⟨"777", "wam1", "text", "hey", "", none⟩ "p1").db 21
     [Event.persist_ai_message 31] [] 31 (by decide),
   C1_pipeline_stage_order.2.2.2 db_one_incoming_message ⟨"w1", "read"⟩
     [Event.persist_delivery_status "w1" "read"] [] "w1" "read" (by decide)⟩

/-- Helper: `get_or_create` on contacts never touches the message table. -/
theorem contact_goc_messages (db : DB) (f a : Nat) (p n : String) :
    (contact_get_or_create db f a p n).2.1.messages = db.messages := by
  unfold contact_get_or_create
  split <;> rfl

/-- Helper: `get_or_create` on conversations never touches the message
table. -/
theorem conversation_goc_messages (db : DB) (f a c : Nat) :
    (conversation_get_or_create db f a c).2.1.messages = db.messages := by
  unfold conversation_get_or_create
  split <;> rfl

/-- Helper: a successful `Message.objects.create` appends exactly the new
row. -/
theorem message_create_ok {db : DB} {m : Message} {db' : DB}
    (h : message_create db m = Except.ok db') :
    db' = { db with messages := db.messages ++ [m] } := by
  unfold message_create at h
  split at h
  · simp at h
  · injection h with h
    exact h.symm

/-- Helper: a failed `Message.objects.create` is only ever the duplicate
branch; no row is written. -/
theorem message_create_err {db : DB} {m : Message} {e : String}
    (h : message_create db m = Except.error e) :
    db.messages.any (fun x => x.whatsapp_id == m.whatsapp_id) = true := by
  unfold message_create at h
  split at h
  · assumption
  · simp at h

/-- Helper: a store extended by a message carrying one of the four labels
stays within the four labels. -/
theorem statusOk_append {db : DB} {m : Message}
    (h : MessagesStatusOk db) (hm : FourStatus m.delivery_status) :
    MessagesStatusOk { db with messages := db.messages ++ [m] } := by
  intro x hx
  rcases List.mem_append.mp hx with hx | hx
  · exact h x hx
  · rw [List.mem_singleton.mp hx]
    exact hm

/-- C2 counterexample.  `process_status_update` matches the stored message
by `whatsapp_id` alone — no direction filter and no validation of the
webhook's status string — so an update naming an INCOMING message's
`whatsapp_id` with the status `'deleted'` (which Meta does emit) rewrites
that incoming message's `delivery_status` to a value outside the four
labels, refuting the claim. -/
theorem C2_counterexample : ¬ delivery_status_claim := by
  intro h
  exact absurd
    (h.2 db_one_incoming_message ⟨"w1", "deleted"⟩
      ⟨1, 9, "w1", "incoming", "text", "hi", none, "deleted"⟩ (by decide) (by decide))
    (by decide)

/-- C2 (amended).  Every message-creating operation writes one of the four
labels (`'delivered'` for incoming, `'sent'` for outgoing), so the
four-label property is preserved by them; `process_status_update`,
however, copies the webhook's status string verbatim into every stored
message matching the `whatsapp_id`, regardless of the message's
direction, and thus preserves the four-label property only when the
delivered status itself is one of the four. -/
theorem C2_delivery_status :
    (∀ (env : TaskEnv) (db : DB) (msg : WebhookMessage) (pid : String),
        MessagesStatusOk db →
        MessagesStatusOk (process_incoming_message env db msg pid).db) ∧
    (∀ (env : TaskEnv) (db : DB) (cid : Nat),
        MessagesStatusOk db → MessagesStatusOk (process_ai_response env db cid).db) ∧
    (∀ (env : TaskEnv) (db : DB) (pk : Nat) (req : Option String),
        MessagesStatusOk db → MessagesStatusOk (send_text env db pk req).db) ∧
    (∀ (db : DB) (files : List String) (root : String) (pk : Nat),
        MessagesStatusOk db →
        MessagesStatusOk (conversation_destroy db files root pk).db) ∧
    (∀ (db : DB) (upd : StatusUpdate),
        (process_status_update db upd).db.messages =
          db.messages.map (fun m =>
            if m.whatsapp_id == upd.su_id then
              { m with delivery_status := upd.su_status }
            else m)) ∧
    (∀ (db : DB) (upd : StatusUpdate), MessagesStatusOk db →
        FourStatus upd.su_status →
        MessagesStatusOk (process_status_update db upd).db) := by
  have hchar : ∀ (db : DB) (upd : StatusUpdate),
      (process_status_update db upd).db.messages =
        db.messages.map (fun m =>
          if m.whatsapp_id == upd.su_id then
            { m with delivery_status := upd.su_status }
          else m) := by
    intro db upd
    unfold process_status_update
    dsimp only
    split
    · rfl
    · dsimp only
      rw [List.map_congr_left, List.map_id]
      intro m hm
      next hfind =>
        have := List.find?_eq_none.mp hfind m hm
        simp only [Bool.not_eq_true] at this
        simp [this]
  refine ⟨?_, ?_, ?_, ?_, hchar, ?_⟩
  · intro env db msg pid h
    unfold process_incoming_message
    dsimp only
    split
    · exact h
    · split
      · next heq =>
          intro x hx
          rw [conversation_goc_messages, contact_goc_messages] at hx
          exact h x hx
      · next db3 heq =>
          have h3 := message_create_ok heq
          intro x hx
          have hx4 : x ∈ db3.messages := by
            split at hx <;> exact hx
          rw [h3] at hx4
          dsimp only at hx4
          rw [conversation_goc_messages, contact_goc_messages] at hx4
          rcases List.mem_append.mp hx4 with hy | hy
          · exact h x hy
          · rw [List.mem_singleton.mp hy]
            exact Or.inr (Or.inl rfl)
  · intro env db cid h
    unfold process_ai_response
    dsimp only
    split
    · exact h
    · split
      · split
        · exact h
        · split
          · exact h
          · next db1 heq =>
              have h1 := message_create_ok heq
              intro x hx
              have hx2 : x ∈ db1.messages := hx
              rw [h1] at hx2
              rcases List.mem_append.mp hx2 with hy | hy
              · exact h x hy
              · rw [List.mem_singleton.mp hy]
                exact Or.inl rfl
      · exact h
  · intro env db pk req h
    unfold send_text
    dsimp only
    split
    · exact h
    · split
      · exact h
      · split
        · exact h
        · next db1 heq =>
            have h1 := message_create_ok heq
            intro x hx
            have hx2 : x ∈ db1.messages := hx
            rw [h1] at hx2
            rcases List.mem_append.mp hx2 with hy | hy
            · exact h x hy
            · rw [List.mem_singleton.mp hy]
              exact Or.inl rfl
  · intro db files root pk h
    unfold conversation_destroy
    dsimp only
    split
    · exact h
    · intro x hx
      exact h x (List.mem_filter.mp hx).1
  · intro db upd h hs
    intro x hx
    rw [hchar db upd] at hx
    rcases List.mem_map.mp hx with ⟨m, hm, hmx⟩
    by_cases hid : (m.whatsapp_id == upd.su_id) = true
    · rw [hid] at hmx
      simp only [if_true] at hmx
      rw [← hmx]
      exact hs
    · rw [Bool.not_eq_true] at hid
      rw [hid] at hmx
      simp only [Bool.false_eq_true, if_false] at hmx
      rw [← hmx]
      exact h m hm

/-- C2 witness: the amended theorem applied at a concrete incoming
message, a status update carrying `'read'`, and the characterization of
the status write. -/
theorem C2_delivery_status_witness :
    MessagesStatusOk
      (process_incoming_message env_sample db_one_account
        ⟨"777", "wam1", "text", "hey", "", none⟩ "p1").db ∧
    MessagesStatusOk (process_status_update db_one_incoming_message ⟨"w1", "read"⟩).db ∧
    (process_status_update db_one_incoming_message ⟨"w1", "deleted"⟩).db.messages =
      db_one_incoming_message.messages.map (fun m =>
        if m.whatsapp_id == "w1" then { m with delivery_status := "deleted" } else m) :=
  ⟨C2_delivery_status.1 env_sample db_one_account ⟨"777", "wam1", "text", "hey", "", none⟩
      "p1" (by intro m hm; simp [db_one_account] at hm),
   C2_delivery_status.2.2.2.2.2 db_one_incoming_message ⟨"w1", "read"⟩
      (by intro m hm; rw [List.mem_singleton.mp hm]; exact Or.inr (Or.inl rfl))
      (Or.inr (Or.inr (Or.inl rfl))),
   C2_delivery_status.2.2.2.2.1 db_one_incoming_message ⟨"w1", "deleted"⟩⟩

/-! Frame and lookup lemmas for the ORM helpers, used by the uniqueness
and replay proofs. -/

theorem contact_goc_accounts (db : DB) (f a : Nat) (p n : String) :
    (contact_get_or_create db f a p n).2.1.accounts = db.accounts := by
  unfold contact_get_or_create
  split <;> rfl

theorem contact_goc_conversations (db : DB) (f a : Nat) (p n : String) :
    (contact_get_or_create db f a p n).2.1.conversations = db.conversations := by
  unfold contact_get_or_create
  split <;> rfl

theorem conversation_goc_accounts (db : DB) (f a c : Nat) :
    (conversation_get_or_create db f a c).2.1.accounts = db.accounts := by
  unfold conversation_get_or_create
  split <;> rfl

theorem conversation_goc_contacts (db : DB) (f a c : Nat) :
    (conversation_get_or_create db f a c).2.1.contacts = db.contacts := by
  unfold conversation_get_or_create
  split <;> rfl

/-- Helper: `find?` skips a prefix in which it failed. -/
theorem find?_append_none {α : Type} {p : α → Bool} {l1 : List α} (l2 : List α)
    (h : l1.find? p = none) : (l1 ++ l2).find? p = l2.find? p := by
  rw [List.find?_append, h]
  rfl

/-- Helper: a `get_or_create` whose lookup succeeds is the identity. -/
theorem contact_goc_found {db : DB} {f a : Nat} {p n : String} {c : Contact}
    (h : db.contacts.find? (fun x => x.account == a && x.phone_number == p) = some c) :
    contact_get_or_create db f a p n = (c, db, false) := by
  unfold contact_get_or_create
  rw [h]

theorem conversation_goc_found {db : DB} {f a c : Nat} {v : Conversation}
    (h : db.conversations.find? (fun x => x.account == a && x.contact == c) = some v) :
    conversation_get_or_create db f a c = (v, db, false) := by
  unfold conversation_get_or_create
  rw [h]

/-- Helper: after a contact `get_or_create`, the key looks up the returned
row. -/
theorem contact_goc_find_self (db : DB) (f a : Nat) (p n : String) :
    (contact_get_or_create db f a p n).2.1.contacts.find?
      (fun x => x.account == a && x.phone_number == p) =
    some (contact_get_or_create db f a p n).1 := by
  unfold contact_get_or_create
  split
  · next c hf => simpa using hf
  · next hf =>
      dsimp only
      rw [find?_append_none _ hf]
      simp

theorem conversation_goc_find_self (db : DB) (f a c : Nat) :
    (conversation_get_or_create db f a c).2.1.conversations.find?
      (fun x => x.account == a && x.contact == c) =
    some (conversation_get_or_create db f a c).1 := by
  unfold conversation_get_or_create
  split
  · next v hf => simpa using hf
  · next hf =>
      dsimp only
      rw [find?_append_none _ hf]
      simp

/-- Helper: a successful `Message.objects.create` passed the duplicate
check. -/
theorem message_create_ok_any {db : DB} {m : Message} {db' : DB}
    (h : message_create db m = Except.ok db') :
    db.messages.any (fun x => x.whatsapp_id == m.whatsapp_id) = false := by
  unfold message_create at h
  split at h
  · simp at h
  · next hc => simpa using hc

/-- Helper: appending one row below a pairwise constraint. -/
theorem pairwise_append_singleton {α : Type} {R : α → α → Prop} {l : List α} {x : α}
    (h : l.Pairwise R) (hx : ∀ y ∈ l, R y x) : (l ++ [x]).Pairwise R :=
  List.pairwise_append.mpr
    ⟨h, List.pairwise_singleton _ _, by
      intro a ha b hb
      rw [List.mem_singleton.mp hb]
      exact hx a ha⟩

/-- Helper: contact `get_or_create` preserves the contact-key uniqueness
constraint. -/
theorem contact_goc_pairwise {db : DB} (f a : Nat) (p n : String)
    (h : db.contacts.Pairwise
      (fun x y => ¬(x.account = y.account ∧ x.phone_number = y.phone_number))) :
    (contact_get_or_create db f a p n).2.1.contacts.Pairwise
      (fun x y => ¬(x.account = y.account ∧ x.phone_number = y.phone_number)) := by
  unfold contact_get_or_create
  split
  · exact h
  · next hf =>
      refine pairwise_append_singleton h ?_
      intro y hy hk
      have := List.find?_eq_none.mp hf y hy
      simp only [Bool.and_eq_true, beq_iff_eq] at this
      exact this ⟨hk.1, hk.2⟩

/-- Helper: conversation `get_or_create` preserves the conversation-key
uniqueness constraint. -/
theorem conversation_goc_pairwise {db : DB} (f a c : Nat)
    (h : db.conversations.Pairwise
      (fun x y => ¬(x.account = y.account ∧ x.contact = y.contact))) :
    (conversation_get_or_create db f a c).2.1.conversations.Pairwise
      (fun x y => ¬(x.account = y.account ∧ x.contact = y.contact)) := by
  unfold conversation_get_or_create
  split
  · exact h
  · next hf =>
      refine pairwise_append_singleton h ?_
      intro y hy hk
      have := List.find?_eq_none.mp hf y hy
      simp only [Bool.and_eq_true, beq_iff_eq] at this
      exact this ⟨hk.1, hk.2⟩

/-- Helper: bumping `last_message_at` keeps the conversation-key
uniqueness constraint (the key fields are untouched). -/
theorem save_last_pairwise {db : DB} (cid t : Nat)
    (h : db.conversations.Pairwise
      (fun x y => ¬(x.account = y.account ∧ x.contact = y.contact))) :
    (conversation_save_last_message_at db cid t).conversations.Pairwise
      (fun x y => ¬(x.account = y.account ∧ x.contact = y.contact)) := by
  unfold conversation_save_last_message_at
  dsimp only
  rw [List.pairwise_map]
  refine h.imp ?_
  intro a b hab hk
  apply hab
  constructor
  · have h1 : (if a.id == cid then { a with last_message_at := some t } else a).account
        = a.account := by split <;> rfl
    have h2 : (if b.id == cid then { b with last_message_at := some t } else b).account
        = b.account := by split <;> rfl
    rw [h1, h2] at hk
    exact hk.1
  · have h1 : (if a.id == cid then { a with last_message_at := some t } else a).contact
        = a.contact := by split <;> rfl
    have h2 : (if b.id == cid then { b with last_message_at := some t } else b).contact
        = b.contact := by split <;> rfl
    rw [h1, h2] at hk
    exact hk.2

/-- Helper: a delivery-status write keeps the `whatsapp_id` uniqueness
constraint (the key field is untouched). -/
theorem save_delivery_pairwise {db : DB} (w s : String)
    (h : db.messages.Pairwise (fun x y => x.whatsapp_id ≠ y.whatsapp_id)) :
    (messages_save_delivery_status db w s).messages.Pairwise
      (fun x y => x.whatsapp_id ≠ y.whatsapp_id) := by
  unfold messages_save_delivery_status
  dsimp only
  rw [List.pairwise_map]
  refine h.imp ?_
  intro a b hab hk
  apply hab
  have h1 : (if a.whatsapp_id == w then { a with delivery_status := s } else a).whatsapp_id
      = a.whatsapp_id := by split <;> rfl
  have h2 : (if b.whatsapp_id == w then { b with delivery_status := s } else b).whatsapp_id
      = b.whatsapp_id := by split <;> rfl
  rw [h1, h2] at hk
  exact hk

theorem save_last_accounts (db : DB) (cid t : Nat) :
    (conversation_save_last_message_at db cid t).accounts = db.accounts := rfl

theorem save_last_contacts (db : DB) (cid t : Nat) :
    (conversation_save_last_message_at db cid t).contacts = db.contacts := rfl

theorem save_last_messages (db : DB) (cid t : Nat) :
    (conversation_save_last_message_at db cid t).messages = db.messages := rfl

/-- Helper: looking a conversation key up after a `last_message_at` bump
finds the bumped image of what it found before. -/
theorem save_last_find_conv (db : DB) (cid t a c : Nat) :
    (conversation_save_last_message_at db cid t).conversations.find?
      (fun x => x.account == a && x.contact == c) =
    (db.conversations.find? (fun x => x.account == a && x.contact == c)).map
      (fun x => if x.id == cid then { x with last_message_at := some t } else x) := by
  unfold conversation_save_last_message_at
  dsimp only
  rw [List.find?_map]
  have hp : ((fun x : Conversation => x.account == a && x.contact == c) ∘
      (fun x => if x.id == cid then { x with last_message_at := some t } else x)) =
      (fun x : Conversation => x.account == a && x.contact == c) := by
    funext x
    dsimp [Function.comp]
    split <;> rfl
  rw [hp]

/-- Helper: replaying the same incoming webhook message leaves the store
exactly as the first processing left it: the contact and conversation are
re-fetched with `get_or_create`, and the repeated `whatsapp_id` makes the
message insert fail before anything is written. -/
theorem process_incoming_replay (env env2 : TaskEnv) (db : DB) (msg : WebhookMessage)
    (pid : String) :
    (process_incoming_message env2 (process_incoming_message env db msg pid).db msg pid).db
      = (process_incoming_message env db msg pid).db := by
  cases hacc : db.accounts.find? (fun a => a.phone_number_id == pid) with
  | none =>
      have h1 : process_incoming_message env db msg pid = ⟨db, [], none⟩ := by
        unfold process_incoming_message
        rw [hacc]
      rw [h1]
      unfold process_incoming_message
      rw [hacc]
  | some account =>
      have hF : (process_incoming_message env db msg pid).db.accounts = db.accounts ∧
          (process_incoming_message env db msg pid).db.contacts =
            (contact_get_or_create db env.fresh_contact_id account.id
              msg.wa_from msg.wa_from).2.1.contacts ∧
          (∃ v, (process_incoming_message env db msg pid).db.conversations.find?
            (fun x => x.account == account.id &&
              x.contact == (contact_get_or_create db env.fresh_contact_id account.id
                msg.wa_from msg.wa_from).1.id) = some v) ∧
          (process_incoming_message env db msg pid).db.messages.any
            (fun x => x.whatsapp_id == msg.wa_id) = true := by
        unfold process_incoming_message
        rw [hacc]
        dsimp only
        split
        · next e heq =>
            refine ⟨?_, ?_, ⟨_, conversation_goc_find_self _ _ _ _⟩, ?_⟩
            · rw [conversation_goc_accounts, contact_goc_accounts]
            · rw [conversation_goc_contacts]
            · simpa using message_create_err heq
        · next db3 heq =>
            have h3 := message_create_ok heq
            have hconv3 : db3.conversations =
                (conversation_get_or_create
                  (contact_get_or_create db env.fresh_contact_id account.id
                    msg.wa_from msg.wa_from).2.1
                  env.fresh_conversation_id account.id
                  (contact_get_or_create db env.fresh_contact_id account.id
                    msg.wa_from msg.wa_from).1.id).2.1.conversations := by
              rw [h3]
            have hmsg3 : db3.messages =
                (conversation_get_or_create
                  (contact_get_or_create db env.fresh_contact_id account.id
                    msg.wa_from msg.wa_from).2.1
                  env.fresh_conversation_id account.id
                  (contact_get_or_create db env.fresh_contact_id account.id
                    msg.wa_from msg.wa_from).1.id).2.1.messages ++
                [⟨env.fresh_message_id,
                  (conversation_get_or_create
                    (contact_get_or_create db env.fresh_contact_id account.id
                      msg.wa_from msg.wa_from).2.1
                    env.fresh_conversation_id account.id
                    (contact_get_or_create db env.fresh_contact_id account.id
                      msg.wa_from msg.wa_from).1.id).1.id,
                  msg.wa_id, "incoming", msg.wa_type,
                  if msg.wa_type == "text" then msg.text_body
                  else if media_message_types.contains msg.wa_type then msg.caption
                  else "",
                  if media_message_types.contains msg.wa_type then
                    msg.media_id.bind env.download_media
                  else none, "delivered"⟩] := by
              rw [h3]
            split <;>
            · refine ⟨?_, ?_, ?_, ?_⟩
              · rw [save_last_accounts, h3]
                dsimp only
                rw [conversation_goc_accounts, contact_goc_accounts]
              · rw [save_last_contacts, h3]
                dsimp only
                rw [conversation_goc_contacts]
              · rw [save_last_find_conv, hconv3, conversation_goc_find_self]
                exact ⟨_, rfl⟩
              · rw [save_last_messages, hmsg3]
                simp
      obtain ⟨hA, hC, ⟨v', hV⟩, hM⟩ := hF
      generalize hDB : (process_incoming_message env db msg pid).db = D at hA hC hV hM ⊢
      unfold process_incoming_message
      rw [hA, hacc]
      dsimp only
      have hfc : D.contacts.find?
          (fun x => x.account == account.id && x.phone_number == msg.wa_from) =
          some (contact_get_or_create db env.fresh_contact_id account.id
            msg.wa_from msg.wa_from).1 := by
        rw [hC]
        exact contact_goc_find_self db env.fresh_contact_id account.id
          msg.wa_from msg.wa_from
      rw [contact_goc_found hfc]
      dsimp only
      rw [conversation_goc_found hV]
      dsimp only
      unfold message_create
      dsimp only
      rw [hM]
      rfl

/-- C5.  Every embedded operation preserves the uniqueness constraints
(at most one `Contact` per `(account, phone_number)`, one `Conversation`
per `(account, contact)`, one `Message` per `whatsapp_id`), and
re-processing the same incoming webhook message leaves the contact and
conversation tables exactly as the first processing left them — no
duplicates — because both rows are obtained with `get_or_create`. -/
theorem C5_uniqueness :
    (∀ (env : TaskEnv) (db : DB) (msg : WebhookMessage) (pid : String),
        UniquenessInvariant db →
        UniquenessInvariant (process_incoming_message env db msg pid).db) ∧
    (∀ (env : TaskEnv) (db : DB) (cid : Nat), UniquenessInvariant db →
        UniquenessInvariant (process_ai_response env db cid).db) ∧
    (∀ (env : TaskEnv) (db : DB) (pk : Nat) (req : Option String),
        UniquenessInvariant db → UniquenessInvariant (send_text env db pk req).db) ∧
    (∀ (db : DB) (files : List String) (root : String) (pk : Nat),
        UniquenessInvariant db →
        UniquenessInvariant (conversation_destroy db files root pk).db) ∧
    (∀ (db : DB) (upd : StatusUpdate), UniquenessInvariant db →
        UniquenessInvariant (process_status_update db upd).db) ∧
    (∀ (env env2 : TaskEnv) (db : DB) (msg : WebhookMessage) (pid : String),
        (process_incoming_message env2 (process_incoming_message env db msg pid).db
          msg pid).db.contacts = (process_incoming_message env db msg pid).db.contacts ∧
        (process_incoming_message env2 (process_incoming_message env db msg pid).db
          msg pid).db.conversations =
          (process_incoming_message env db msg pid).db.conversations) := by
  refine ⟨?_, ?_, ?_, ?_, ?_, ?_⟩
  · intro env db msg pid h
    unfold process_incoming_message
    dsimp only
    split
    · exact h
    · split
      · next e heq =>
          refine ⟨?_, ?_, ?_⟩
          · rw [conversation_goc_contacts]
            exact contact_goc_pairwise _ _ _ _ h.1
          · apply conversation_goc_pairwise
            rw [contact_goc_conversations]
            exact h.2.1
          · rw [conversation_goc_messages, contact_goc_messages]
            exact h.2.2
      · next db3 heq =>
          have h3 := message_create_ok heq
          split <;>
          · refine ⟨?_, ?_, ?_⟩
            · rw [save_last_contacts, h3]
              dsimp only
              rw [conversation_goc_contacts]
              exact contact_goc_pairwise _ _ _ _ h.1
            · apply save_last_pairwise
              rw [h3]
              dsimp only
              apply conversation_goc_pairwise
              rw [contact_goc_conversations]
              exact h.2.1
            · rw [save_last_messages, h3]
              dsimp only
              apply pairwise_append_singleton
              · rw [conversation_goc_messages, contact_goc_messages]
                exact h.2.2
              · intro y hy
                have hne := List.any_eq_false.mp (message_create_ok_any heq) y hy
                simpa using hne
  · intro env db cid h
    unfold process_ai_response
    dsimp only
    split
    · exact h
    · split
      · split
        · exact h
        · split
          · exact h
          · next db1 heq =>
              have h1 := message_create_ok heq
              refine ⟨?_, ?_, ?_⟩
              · rw [save_last_contacts, h1]
                exact h.1
              · apply save_last_pairwise
                rw [h1]
                exact h.2.1
              · rw [save_last_messages, h1]
                dsimp only
                apply pairwise_append_singleton h.2.2
                intro y hy
                have hne := List.any_eq_false.mp (message_create_ok_any heq) y hy
                simpa using hne
      · exact h
  · intro env db pk req h
    unfold send_text
    dsimp only
    split
    · exact h
    · split
      · exact h
      · split
        · exact h
        · next db1 heq =>
            have h1 := message_create_ok heq
            refine ⟨?_, ?_, ?_⟩
            · rw [save_last_contacts, h1]
              exact h.1
            · apply save_last_pairwise
              rw [h1]
              exact h.2.1
            · rw [save_last_messages, h1]
              dsimp only
              apply pairwise_append_singleton h.2.2
              intro y hy
              have hne := List.any_eq_false.mp (message_create_ok_any heq) y hy
              simpa using hne
  · intro db files root pk h
    unfold conversation_destroy
    dsimp only
    split
    · exact h
    · refine ⟨h.1, ?_, ?_⟩
      · exact h.2.1.sublist (List.filter_sublist _)
      · exact h.2.2.sublist (List.filter_sublist _)
  · intro db upd h
    unfold process_status_update
    dsimp only
    split
    · exact ⟨h.1, h.2.1, save_delivery_pairwise _ _ h.2.2⟩
    · exact h
  · intro env env2 db msg pid
    rw [process_incoming_replay]
    exact ⟨rfl, rfl⟩

/-- C5 witness: the preservation conjuncts and the replay conjunct at a
concrete incoming message processed twice against a one-account store. -/
theorem C5_uniqueness_witness :
    UniquenessInvariant
      (process_incoming_message env_sample db_one_account
        ⟨"777", "wam1", "text", "hey", "", none⟩ "p1").db ∧
    (process_incoming_message env_sample_no_ai
        (process_incoming_message env_sample db_one_account
          ⟨"777", "wam1", "text", "hey", "", none⟩ "p1").db
        ⟨"777", "wam1", "text", "hey", "", none⟩ "p1").db.contacts =
      (process_incoming_message env_sample db_one_account
        ⟨"777", "wam1", "text", "hey", "", none⟩ "p1").db.contacts :=
  ⟨C5_uniqueness.1 env_sample db_one_account ⟨"777", "wam1", "text", "hey", "", none⟩
      "p1" ⟨List.Pairwise.nil, List.Pairwise.nil, List.Pairwise.nil⟩,
   (C5_uniqueness.2.2.2.2.2 env_sample env_sample_no_ai db_one_account
      ⟨"777", "wam1", "text", "hey", "", none⟩ "p1").1⟩

/-- Helper: with pairwise-distinct truthy parameter names, the
classification loop of `_apply_parameters` (an insertion-ordered dict for
named values plus a list for positional ones) produces exactly the
claim-side named pairs and positional texts. -/
theorem classify_eq_spec (params : List TemplateParameter) :
    ∀ (n0 : List (String × String)) (p0 : List String),
      ((spec_named_pairs params).map Prod.fst).Nodup →
      (∀ k ∈ (spec_named_pairs params).map Prod.fst, ∀ kv ∈ n0, kv.1 ≠ k) →
      params.foldl classify_step (n0, p0) =
      (n0 ++ spec_named_pairs params, p0 ++ spec_positional_texts params) := by
  induction params with
  | nil =>
      intro n0 p0 _ _
      simp [spec_named_pairs, spec_positional_texts]
  | cons p ps ih =>
      intro n0 p0 hnd hdisj
      by_cases ht : (p.ptype == "text") = true
      · have ht' : p.ptype = "text" := by simpa using ht
        cases hpn : p.parameter_name with
        | none =>
            have hsn : spec_named_pairs (p :: ps) = spec_named_pairs ps := by
              simp [spec_named_pairs, List.filterMap_cons, ht', hpn]
            have hsp : spec_positional_texts (p :: ps) =
                p.text :: spec_positional_texts ps := by
              simp [spec_positional_texts, List.filterMap_cons, ht', hpn]
            have hstep : classify_step (n0, p0) p = (n0, p0 ++ [p.text]) := by
              simp [classify_step, ht, hpn]
            rw [hsn] at hnd hdisj
            rw [List.foldl_cons, hstep, ih n0 (p0 ++ [p.text]) hnd hdisj, hsn, hsp]
            simp
        | some n =>
            by_cases hne : (n == "") = true
            · have hne' : n = "" := by simpa using hne
              have hsn : spec_named_pairs (p :: ps) = spec_named_pairs ps := by
                simp [spec_named_pairs, List.filterMap_cons, ht', hpn, hne']
              have hsp : spec_positional_texts (p :: ps) =
                  p.text :: spec_positional_texts ps := by
                simp [spec_positional_texts, List.filterMap_cons, ht', hpn, hne']
              have hstep : classify_step (n0, p0) p = (n0, p0 ++ [p.text]) := by
                simp [classify_step, ht, hpn, hne]
              rw [hsn] at hnd hdisj
              rw [List.foldl_cons, hstep, ih n0 (p0 ++ [p.text]) hnd hdisj, hsn, hsp]
              simp
            · have hnstr : n ≠ "" := by simpa using hne
              have hsn : spec_named_pairs (p :: ps) =
                  (n, p.text) :: spec_named_pairs ps := by
                simp [spec_named_pairs, List.filterMap_cons, ht', hpn, hnstr]
              have hsp : spec_positional_texts (p :: ps) =
                  spec_positional_texts ps := by
                simp [spec_positional_texts, List.filterMap_cons, ht', hpn, hnstr]
              rw [hsn] at hnd hdisj
              simp only [List.map_cons] at hnd
              have hnd' := List.nodup_cons.mp hnd
              have hup : dict_upsert n0 n p.text = n0 ++ [(n, p.text)] := by
                unfold dict_upsert
                have hany : (n0.any (fun kv => kv.1 == n)) = false := by
                  rw [List.any_eq_false]
                  intro kv hkv
                  have := hdisj n (by simp) kv hkv
                  simpa using this
                rw [hany]
                simp
              have hstep : classify_step (n0, p0) p = (n0 ++ [(n, p.text)], p0) := by
                simp [classify_step, ht, hpn, hne, hup]
              have hd : ∀ k ∈ (spec_named_pairs ps).map Prod.fst,
                  ∀ kv ∈ n0 ++ [(n, p.text)], kv.1 ≠ k := by
                intro k hk kv hkv
                rcases List.mem_append.mp hkv with hkv | hkv
                · exact hdisj k
                    (by simp only [List.map_cons]; exact List.mem_cons_of_mem _ hk)
                    kv hkv
                · rw [List.mem_singleton.mp hkv]
                  intro hkn
                  exact hnd'.1 (by rwa [← hkn] at hk)
              rw [List.foldl_cons, hstep, ih (n0 ++ [(n, p.text)]) p0 hnd'.2 hd,
                hsn, hsp]
              simp
      · have ht' : p.ptype ≠ "text" := by simpa using ht
        have hsn : spec_named_pairs (p :: ps) = spec_named_pairs ps := by
          simp [spec_named_pairs, List.filterMap_cons, ht']
        have hsp : spec_positional_texts (p :: ps) = spec_positional_texts ps := by
          simp [spec_positional_texts, List.filterMap_cons, ht']
        have hstep : classify_step (n0, p0) p = (n0, p0) := by
          simp [classify_step, ht]
        rw [hsn] at hnd hdisj
        rw [List.foldl_cons, hstep, ih n0 p0 hnd hdisj, hsn, hsp]

/-- Helper: `_apply_parameters` realizes the claim-side substitution when
the truthy parameter names are pairwise distinct. -/
theorem apply_parameters_spec (text : String) (components : List TemplateComponent)
    (sent : TemplateComponent)
    (hf : components.find? (fun c => c.ctype == "body") = some sent)
    (hne : sent.parameters ≠ [])
    (hnd : ((spec_named_pairs sent.parameters).map Prod.fst).Nodup) :
    apply_parameters text components =
      spec_substitute text (spec_named_pairs sent.parameters)
        (spec_positional_texts sent.parameters) := by
  cases hp : sent.parameters with
  | nil => exact absurd hp hne
  | cons q qs =>
      have hcl := classify_eq_spec (q :: qs) [] [] (by rw [← hp]; exact hnd)
        (by intro k _ kv hkv; exact absurd hkv (List.not_mem_nil kv))
      unfold apply_parameters
      rw [hf]
      dsimp only
      rw [hp]
      simp only [List.isEmpty_cons, Bool.false_eq_true, if_false]
      unfold classify_parameters
      rw [hcl]
      simp [spec_substitute]

/-- C6.  Template rendering: an APPROVED template's BODY text has each
named placeholder replaced by the text of the parameter of that name and
each 1-based positional placeholder replaced by the matching positional
text (provided the submitted names are distinct, as Meta requires); with
no submitted body parameters the body text is returned unchanged; and
with no APPROVED `(account, name, language)` match the rendered body is
the fallback `'[Template: <name>]'`. -/
theorem C6_template_rendering :
    (∀ (db : DB) (acct : Nat) (name lang : String)
        (comps : List TemplateComponent),
        db.templates.find? (fun t => t.account == acct && t.name == name &&
          t.language == lang && t.status == "APPROVED") = none →
        render_template_body db acct name lang comps = "[Template: " ++ name ++ "]") ∧
    (∀ (db : DB) (acct : Nat) (name lang : String)
        (comps : List TemplateComponent) (template : WhatsAppTemplate)
        (body_component : TemplateComponent) (t : String),
        db.templates.find? (fun t => t.account == acct && t.name == name &&
          t.language == lang && t.status == "APPROVED") = some template →
        extract_body_component template.components = some body_component →
        body_component.text = some t → t ≠ "" →
        ((comps.find? (fun c => c.ctype == "body") = none →
            render_template_body db acct name lang comps = t) ∧
         (∀ sent, comps.find? (fun c => c.ctype == "body") = some sent →
            sent.parameters = [] →
            render_template_body db acct name lang comps = t) ∧
         (∀ sent, comps.find? (fun c => c.ctype == "body") = some sent →
            sent.parameters ≠ [] →
            ((spec_named_pairs sent.parameters).map Prod.fst).Nodup →
            render_template_body db acct name lang comps =
              spec_substitute t (spec_named_pairs sent.parameters)
                (spec_positional_texts sent.parameters)))) := by
  constructor
  · intro db acct name lang comps hf
    unfold render_template_body
    rw [hf]
  · intro db acct name lang comps template body_component t hf hb ht htne
    have hbt : (body_component.text.getD "" == "") = false := by
      rw [ht]
      simpa using htne
    have hrw : render_template_body db acct name lang comps =
        apply_parameters t comps := by
      unfold render_template_body
      rw [hf]
      dsimp only
      rw [hb]
      dsimp only
      rw [hbt]
      simp only [Bool.false_eq_true, if_false]
      rw [ht]
      rfl
    refine ⟨?_, ?_, ?_⟩
    · intro hnone
      rw [hrw]
      unfold apply_parameters
      rw [hnone]
    · intro sent hsent hempty
      rw [hrw]
      unfold apply_parameters
      rw [hsent]
      dsimp only
      rw [hempty]
      rfl
    · intro sent hsent hnonempty hnd
      rw [hrw]
      exact apply_parameters_spec t comps sent hsent hnonempty hnd

/-- C6 witness: the three conjuncts at a concrete APPROVED template with
one named and one positional placeholder, plus the evaluated result. -/
theorem C6_template_rendering_witness :
    render_template_body db_one_template 1 "missing" "es" [] = "[Template: missing]" ∧
    render_template_body db_one_template 1 "hello" "es" [] =
      "Hola \x7b\x7bname\x7d\x7d, pedido \x7b\x7b1\x7d\x7d" ∧
    render_template_body db_one_template 1 "hello" "es"
        [⟨"body", none, [⟨"text", "Ana", some "name"⟩, ⟨"text", "A1", none⟩]⟩] =
      spec_substitute "Hola \x7b\x7bname\x7d\x7d, pedido \x7b\x7b1\x7d\x7d"
        [("name", "Ana")] ["A1"] ∧
    spec_substitute "Hola \x7b\x7bname\x7d\x7d, pedido \x7b\x7b1\x7d\x7d"
        [("name", "Ana")] ["A1"] = "Hola Ana, pedido A1" :=
  ⟨C6_template_rendering.1 db_one_template 1 "missing" "es" [] (by decide),
   (C6_template_rendering.2 db_one_template 1 "hello" "es" []
      ⟨1, 1, "hello", "es", "APPROVED",
        [⟨"BODY", some "Hola \x7b\x7bname\x7d\x7d, pedido \x7b\x7b1\x7d\x7d", []⟩]⟩
      ⟨"BODY", some "Hola \x7b\x7bname\x7d\x7d, pedido \x7b\x7b1\x7d\x7d", []⟩
      "Hola \x7b\x7bname\x7d\x7d, pedido \x7b\x7b1\x7d\x7d"
      (by decide) (by decide) (by decide) (by decide)).1 (by decide),
   (C6_template_rendering.2 db_one_template 1 "hello" "es"
      [⟨"body", none, [⟨"text", "Ana", some "name"⟩, ⟨"text", "A1", none⟩]⟩]
      ⟨1, 1, "hello", "es", "APPROVED",
        [⟨"BODY", some "Hola \x7b\x7bname\x7d\x7d, pedido \x7b\x7b1\x7d\x7d", []⟩]⟩
      ⟨"BODY", some "Hola \x7b\x7bname\x7d\x7d, pedido \x7b\x7b1\x7d\x7d", []⟩
      "Hola \x7b\x7bname\x7d\x7d, pedido \x7b\x7b1\x7d\x7d"
      (by decide) (by decide) (by decide) (by decide)).2.2
      ⟨"body", none, [⟨"text", "Ana", some "name"⟩, ⟨"text", "A1", none⟩]⟩
      (by decide) (by decide) (by decide),
   by decide⟩

/-! Lemmas about the POSIX path components used by
`convert_media_for_whatsapp`. -/

theorem takeWhile_all {q : Char → Bool} {x : List Char} (h : x.all q = true) :
    x.takeWhile q = x := by
  induction x with
  | nil => rfl
  | cons c cs ih =>
      rw [List.all_cons, Bool.and_eq_true] at h
      rw [List.takeWhile_cons, if_pos h.1, ih h.2]

theorem takeWhile_append_split (q : Char → Bool) (x y : List Char) :
    (x ++ y).takeWhile q = if x.all q then x ++ y.takeWhile q else x.takeWhile q := by
  induction x with
  | nil => simp
  | cons c cs ih =>
      by_cases hc : q c = true
      · by_cases ha : cs.all q = true
        · simp [List.takeWhile_cons, List.all_cons, hc, ha, ih]
        · simp [List.takeWhile_cons, List.all_cons, hc, ha, ih]
      · simp [List.takeWhile_cons, List.all_cons, hc]

theorem dropWhile_head_false (q : Char → Bool) (l : List Char) :
    l.dropWhile q = [] ∨ ∃ c cs, l.dropWhile q = c :: cs ∧ q c = false := by
  induction l with
  | nil => exact Or.inl rfl
  | cons c cs ih =>
      by_cases hc : q c = true
      · rw [List.dropWhile_cons, if_pos hc]
        exact ih
      · rw [List.dropWhile_cons, if_neg hc]
        exact Or.inr ⟨c, cs, rfl, by simpa using hc⟩

theorem basenameChars_no_slash (l : List Char) : '/' ∉ PyPath.basenameChars l := by
  intro hm
  unfold PyPath.basenameChars at hm
  rw [List.mem_reverse] at hm
  have := List.mem_takeWhile_imp hm
  simp at this

theorem basenameChars_append {E : List Char} (S : List Char) (hE : '/' ∉ E) :
    PyPath.basenameChars (S ++ E) = PyPath.basenameChars S ++ E := by
  unfold PyPath.basenameChars
  rw [List.reverse_append, takeWhile_append_split]
  have hall : E.reverse.all (fun c => c != '/') = true := by
    rw [List.all_eq_true]
    intro c hc
    rw [List.mem_reverse] at hc
    have : c ≠ '/' := fun h => hE (h ▸ hc)
    simpa using this
  rw [if_pos hall, List.reverse_append, List.reverse_reverse]

theorem headChars_eq (l : List Char) :
    PyPath.headChars l = (l.reverse.dropWhile (fun c => c != '/')).reverse := by
  unfold PyPath.headChars PyPath.basenameChars
  set A := (l.reverse.dropWhile (fun c => c != '/')).reverse with hA
  set B := (l.reverse.takeWhile (fun c => c != '/')).reverse with hB
  have hl : l = A ++ B := by
    rw [hA, hB]
    calc l = l.reverse.reverse := (List.reverse_reverse l).symm
      _ = (l.reverse.takeWhile (fun c => c != '/') ++
            l.reverse.dropWhile (fun c => c != '/')).reverse := by
          rw [List.takeWhile_append_dropWhile]
      _ = _ := by rw [List.reverse_append]
  rw [hl]
  simp only [List.length_append, Nat.add_sub_cancel]
  exact List.take_left A B

theorem decomp_head_basename (l : List Char) :
    l = PyPath.headChars l ++ PyPath.basenameChars l := by
  rw [headChars_eq]
  unfold PyPath.basenameChars
  calc l = l.reverse.reverse := (List.reverse_reverse l).symm
    _ = (l.reverse.takeWhile (fun c => c != '/') ++
          l.reverse.dropWhile (fun c => c != '/')).reverse := by
        rw [List.takeWhile_append_dropWhile]
    _ = _ := by rw [List.reverse_append]

theorem headChars_shape (l : List Char) :
    PyPath.headChars l = [] ∨ ∃ D, PyPath.headChars l = D ++ ['/'] := by
  rw [headChars_eq]
  rcases dropWhile_head_false (fun c => c != '/') l.reverse with h | ⟨c, cs, h, hc⟩
  · left
    rw [h]
    rfl
  · right
    have hc' : c = '/' := by simpa using hc
    exact ⟨cs.reverse, by rw [h, hc', List.reverse_cons]⟩

theorem basename_append_ends_slash {as : List Char} (bs : List Char)
    (h : as = [] ∨ ∃ ds, as = ds ++ ['/']) :
    PyPath.basenameChars (as ++ bs) = PyPath.basenameChars bs := by
  rcases h with rfl | ⟨ds, rfl⟩
  · simp
  · unfold PyPath.basenameChars
    rw [List.reverse_append, takeWhile_append_split]
    by_cases hall : bs.reverse.all (fun c => c != '/') = true
    · rw [if_pos hall]
      have h1 : ((ds ++ ['/']).reverse).takeWhile (fun c => c != '/') = [] := by
        rw [List.reverse_append]
        simp [List.takeWhile_cons]
      rw [h1, takeWhile_all hall]
      simp
    · rw [if_neg hall]

theorem rstrip_one {D : List Char} (hD : leads ['/'] D.reverse = false) :
    PyPath.rstripSlashes (D ++ ['/']) = D := by
  unfold PyPath.rstripSlashes
  rw [List.reverse_append]
  have h1 : (['/'].reverse ++ D.reverse).dropWhile (fun c => c == '/') =
      D.reverse.dropWhile (fun c => c == '/') := by
    simp [List.dropWhile_cons]
  rw [h1]
  have h2 : D.reverse.dropWhile (fun c => c == '/') = D.reverse := by
    cases hr : D.reverse with
    | nil => rfl
    | cons c cs =>
        have hc : (c == '/') = false := by
          rw [hr] at hD
          unfold leads at hD
          cases hcc : ('/' == c) with
          | false => simpa [BEq.comm] using hcc
          | true => rw [hcc] at hD; simp [leads] at hD
        rw [List.dropWhile_cons, hc]
        simp
  rw [h2, List.reverse_reverse]

theorem dirname_no_slash {l : List Char} (h : '/' ∉ l) :
    PyPath.dirnameChars l = [] := by
  have hb : PyPath.basenameChars l = l := by
    unfold PyPath.basenameChars
    rw [takeWhile_all, List.reverse_reverse]
    rw [List.all_eq_true]
    intro c hc
    rw [List.mem_reverse] at hc
    have : c ≠ '/' := fun he => h (he ▸ hc)
    simpa using this
  have hh : PyPath.headChars l = [] := by
    unfold PyPath.headChars
    rw [hb]
    simp
  unfold PyPath.dirnameChars
  rw [hh]
  rfl

theorem dirname_root_file {B : List Char} (h : '/' ∉ B) :
    PyPath.dirnameChars ('/' :: B) = ['/'] := by
  have hb : PyPath.basenameChars ('/' :: B) = B := by
    have h1 := basenameChars_append (E := B) ['/'] h
    simpa using h1
  have hh : PyPath.headChars ('/' :: B) = ['/'] := by
    have hd := decomp_head_basename ('/' :: B)
    rw [hb] at hd
    exact (List.append_cancel_right (by simpa using hd.symm))
  unfold PyPath.dirnameChars
  rw [hh]
  rfl

theorem dirname_dir_file {D B : List Char} (hB : '/' ∉ B)
    (hD : leads ['/'] D.reverse = false) (hDne : D ≠ []) :
    PyPath.dirnameChars (D ++ '/' :: B) = D := by
  have hb : PyPath.basenameChars (D ++ '/' :: B) = B := by
    have h0 : D ++ '/' :: B = (D ++ ['/']) ++ B := by simp
    rw [h0, basename_append_ends_slash B (Or.inr ⟨D, rfl⟩)]
    unfold PyPath.basenameChars
    rw [takeWhile_all, List.reverse_reverse]
    rw [List.all_eq_true]
    intro c hc
    rw [List.mem_reverse] at hc
    have : c ≠ '/' := fun he => hB (he ▸ hc)
    simpa using this
  have hh : PyPath.headChars (D ++ '/' :: B) = D ++ ['/'] := by
    have hd := decomp_head_basename (D ++ '/' :: B)
    rw [hb] at hd
    have h0 : (D ++ ['/']) ++ B = PyPath.headChars (D ++ '/' :: B) ++ B := by
      simpa using hd
    exact (List.append_cancel_right h0).symm
  unfold PyPath.dirnameChars
  rw [hh]
  dsimp only
  have hne : ((D ++ ['/']).isEmpty || (D ++ ['/']).all (fun c => c == '/')) = false := by
    rw [Bool.or_eq_false_iff]
    constructor
    · simp
    · rw [Bool.eq_false_iff]
      intro hall
      rw [List.all_eq_true] at hall
      cases hr : D.reverse with
      | nil => exact hDne (by simpa using congrArg List.reverse hr)
      | cons c cs =>
          have hcm : c ∈ D := by
            rw [← List.mem_reverse, hr]
            exact List.mem_cons_self _ _
          have := hall c (List.mem_append_left _ hcm)
          have hc : c = '/' := by simpa using this
          rw [hr, hc] at hD
          simp [leads] at hD
  rw [hne]
  simp only [Bool.false_eq_true, if_false]
  exact rstrip_one hD

theorem splitextStem_eq {S T : List Char} (hT : ∀ c ∈ T, c ≠ '.')
    (hS : S.any (fun c => c != '.') = true) :
    PyPath.splitextStem (S ++ '.' :: T) = S := by
  unfold PyPath.splitextStem
  have hc : (S ++ '.' :: T).contains '.' = true := by
    have hm : '.' ∈ S ++ '.' :: T :=
      List.mem_append_right _ (List.mem_cons_self _ _)
    exact List.elem_iff.mpr hm
  rw [if_pos hc]
  have hafter : ((S ++ '.' :: T).reverse.takeWhile (fun c => c != '.')).length
      = T.length := by
    have h0 : (S ++ '.' :: T).reverse = T.reverse ++ '.' :: S.reverse := by
      simp
    rw [h0, takeWhile_append_split]
    have hall : T.reverse.all (fun c => c != '.') = true := by
      rw [List.all_eq_true]
      intro c hcm
      rw [List.mem_reverse] at hcm
      simpa using hT c hcm
    rw [if_pos hall]
    simp [List.takeWhile_cons]
  rw [hafter]
  dsimp only
  have hlen : (S ++ '.' :: T).length - T.length - 1 = S.length := by
    simp only [List.length_append, List.length_cons]
    omega
  rw [hlen]
  have hpre : (S ++ '.' :: T).take S.length = S := List.take_left _ _
  rw [hpre, if_pos hS]

theorem leads_take {a x : List Char} (h : leads a x = true) : x.take a.length = a := by
  induction a generalizing x with
  | nil => simp
  | cons c cs ih =>
      cases x with
      | nil => simp [leads] at h
      | cons d ds =>
          unfold leads at h
          rw [Bool.and_eq_true] at h
          have hc : c = d := by simpa using h.1
          rw [List.length_cons, List.take_succ_cons, ih h.2, hc]

theorem leads_decomp {a x : List Char} (h : leads a x = true) :
    x = a ++ x.drop a.length := by
  conv_lhs => rw [← List.take_append_drop a.length x]
  rw [leads_take h]

theorem leads_self_append (a z : List Char) : leads a (a ++ z) = true := by
  induction a with
  | nil => rfl
  | cons c cs ih => simp [leads, ih]

theorem leads_slash_head {c : Char} (r : List Char) :
    leads ['/'] (c :: r) = ('/' == c) := by
  show ('/' == c && leads [] r) = ('/' == c)
  rw [show leads [] r = true from rfl]
  exact Bool.and_true _

theorem any_ne_nil {q : Char → Bool} {S : List Char} (h : S.any q = true) : S ≠ [] := by
  intro he
  rw [he] at h
  simp at h

theorem twoSlashes_cons_false {c : Char} {l : List Char}
    (h : twoSlashes (c :: l) = false) : twoSlashes l = false := by
  cases l with
  | nil => rfl
  | cons d ds =>
      rw [show twoSlashes (c :: d :: ds) =
          ((c == '/' && d == '/') || twoSlashes (d :: ds)) from rfl,
        Bool.or_eq_false_iff] at h
      exact h.2

theorem twoSlashes_suffix {a b : List Char} (h : twoSlashes (a ++ b) = false) :
    twoSlashes b = false := by
  induction a with
  | nil => exact h
  | cons c cs ih => exact ih (twoSlashes_cons_false h)

theorem twoSlashes_mid (u v : List Char) : twoSlashes (u ++ '/' :: '/' :: v) = true := by
  induction u with
  | nil => simp [twoSlashes]
  | cons c cs ih =>
      cases cs with
      | nil =>
          show twoSlashes (c :: '/' :: '/' :: v) = true
          rw [show twoSlashes (c :: '/' :: '/' :: v) =
              ((c == '/' && '/' == '/') || twoSlashes ('/' :: '/' :: v)) from rfl]
          simp [twoSlashes]
      | cons d ds =>
          rw [List.cons_append] at ih ⊢
          rw [List.cons_append]
          rw [show twoSlashes (c :: d :: (ds ++ '/' :: '/' :: v)) =
              ((c == '/' && d == '/') || twoSlashes (d :: (ds ++ '/' :: '/' :: v)))
            from rfl, ih]
          simp

theorem strOfList_data (l : List Char) : (strOfList l).data = l := rfl

/-- Helper: `os.path.join` never changes the basename. -/
theorem basename_join (a b : String) :
    PyPath.basenameChars (PyPath.join a b).data = PyPath.basenameChars b.data := by
  unfold PyPath.join
  by_cases hs : str_starts "/" b = true
  · rw [if_pos hs]
  · rw [if_neg (by simp [hs])]
    by_cases he : (a == "" || str_ends "/" a) = true
    · rw [if_pos he]
      rw [String.data_append]
      rcases Bool.or_eq_true_iff.mp he with h1 | h2
      · have ha : a.data = [] := by
          have h : a = "" := by simpa using h1
          rw [h]
        rw [ha, List.nil_append]
      · have hlead : leads ['/'] a.data.reverse = true := h2
        have ha : a.data =
            (a.data.reverse.drop (['/'] : List Char).length).reverse ++ ['/'] := by
          calc a.data = a.data.reverse.reverse := (List.reverse_reverse _).symm
            _ = (['/'] ++ a.data.reverse.drop (['/'] : List Char).length).reverse := by
                rw [← leads_decomp hlead]
            _ = _ := by rw [List.reverse_append]; rfl
        rw [ha]
        exact basename_append_ends_slash _ (Or.inr ⟨_, rfl⟩)
    · rw [if_neg he]
      rw [String.data_append, String.data_append]
      have hsplit : a.data ++ ("/" : String).data ++ b.data =
          (a.data ++ ['/']) ++ b.data := rfl
      rw [hsplit]
      exact basename_append_ends_slash _ (Or.inr ⟨a.data, rfl⟩)

/-- Helper (the core path computation): for a well-formed path whose
basename splits as `stem.eee` with a 4-character extension, rebuilding
`dirname/stem.ogg` — exactly what `convert_media_for_whatsapp` does —
yields the path with its extension replaced. -/
theorem join_dirname_stem (x : String) (S T : List Char)
    (h2s : twoSlashes x.data = false)
    (hb : PyPath.basenameChars x.data = S ++ '.' :: T)
    (hT4 : T.length = 4)
    (hTd : ∀ c ∈ T, c ≠ '.')
    (hS : S.any (fun c => c != '.') = true) :
    PyPath.join (PyPath.dirname x)
      (strOfList (PyPath.splitextStem (PyPath.basenameChars x.data)) ++ ".ogg")
    = strOfList (x.data.take (x.data.length - 5)) ++ ".ogg" := by
  have hstem : PyPath.splitextStem (PyPath.basenameChars x.data) = S := by
    rw [hb]
    exact splitextStem_eq hTd hS
  have hSne : S ≠ [] := any_ne_nil hS
  have hSnoslash : ∀ c ∈ S, c ≠ '/' := by
    intro c hc heq
    exact basenameChars_no_slash x.data
      (by rw [hb]; exact List.mem_append_left _ (heq ▸ hc))
  have hBnoslash : '/' ∉ S ++ '.' :: T := by
    rw [← hb]
    exact basenameChars_no_slash x.data
  have hy : (strOfList (PyPath.splitextStem (PyPath.basenameChars x.data)) ++
      ".ogg").data = S ++ (".ogg" : String).data := by
    rw [String.data_append, hstem]
    rfl
  have hynostart : str_starts "/"
      (strOfList (PyPath.splitextStem (PyPath.basenameChars x.data)) ++ ".ogg")
      = false := by
    unfold str_starts
    rw [show ("/" : String).data = ['/'] from rfl, hy]
    cases S with
    | nil => exact absurd rfl hSne
    | cons c cs =>
        rw [List.cons_append, leads_slash_head]
        exact beq_eq_false_iff_ne.mpr (Ne.symm (hSnoslash c (List.mem_cons_self c cs)))
  rcases headChars_shape x.data with hh | ⟨D, hh⟩
  · have hxb : x.data = PyPath.basenameChars x.data := by
      have := decomp_head_basename x.data
      rw [hh] at this
      simpa using this
    have hxeq : x.data = S ++ '.' :: T := by rw [hxb, hb]
    have hnos : '/' ∉ x.data := by
      rw [hxb]
      exact basenameChars_no_slash x.data
    have hdir : PyPath.dirname x = "" := by
      unfold PyPath.dirname
      rw [dirname_no_slash hnos]
      rfl
    rw [hdir]
    unfold PyPath.join
    rw [if_neg (by rw [hynostart]; exact Bool.false_ne_true)]
    rw [if_pos (by simp)]
    have htake : x.data.take (x.data.length - 5) = S := by
      rw [hxeq]
      have hlen : (S ++ '.' :: T).length - 5 = S.length := by
        simp only [List.length_append, List.length_cons, hT4]
        omega
      rw [hlen]
      exact List.take_left _ _
    apply String.ext
    simp [String.data_append, hstem, strOfList_data]
    rw [show x.length - 5 = x.data.length - 5 from rfl, htake]
  · have hxeq : x.data = D ++ '/' :: (S ++ '.' :: T) := by
      have := decomp_head_basename x.data
      rw [hh, hb] at this
      simpa using this
    by_cases hD : D = []
    · subst hD
      rw [List.nil_append] at hxeq
      have hdir : PyPath.dirname x = "/" := by
        unfold PyPath.dirname
        rw [hxeq, dirname_root_file hBnoslash]
        rfl
      rw [hdir]
      unfold PyPath.join
      rw [if_neg (by rw [hynostart]; exact Bool.false_ne_true)]
      rw [if_pos (by decide)]
      have htake : x.data.take (x.data.length - 5) = '/' :: S := by
        rw [hxeq]
        have hgroup : '/' :: (S ++ '.' :: T) = ('/' :: S) ++ '.' :: T := by simp
        rw [hgroup]
        have hlen : (('/' :: S) ++ '.' :: T).length - 5 = ('/' :: S).length := by
          simp only [List.length_append, List.length_cons, hT4]
          omega
        rw [hlen]
        exact List.take_left _ _
      apply String.ext
      simp [String.data_append, hstem, strOfList_data,
        show ("/" : String).data = ['/'] from rfl]
      rw [show x.length - 5 = x.data.length - 5 from rfl, htake]
      simp
    · have hDlast : leads ['/'] D.reverse = false := by
        cases hr : D.reverse with
        | nil => exact absurd (by simpa using congrArg List.reverse hr) hD
        | cons c cs =>
            rw [leads_slash_head]
            cases hcc : ('/' == c) with
            | false => rfl
            | true =>
                exfalso
                have hc : c = '/' := by
                  have : '/' = c := by simpa using hcc
                  exact this.symm
                have hDr : D = cs.reverse ++ ['/'] := by
                  calc D = D.reverse.reverse := (List.reverse_reverse _).symm
                    _ = (c :: cs).reverse := by rw [hr]
                    _ = cs.reverse ++ [c] := List.reverse_cons _ _
                    _ = cs.reverse ++ ['/'] := by rw [hc]
                have hx2 : x.data = cs.reverse ++ '/' :: '/' :: (S ++ '.' :: T) := by
                  rw [hxeq, hDr]
                  simp
                rw [hx2, twoSlashes_mid] at h2s
                simp at h2s
      have hdir : PyPath.dirname x = strOfList D := by
        unfold PyPath.dirname
        rw [hxeq, dirname_dir_file hBnoslash hDlast hD]
      rw [hdir]
      unfold PyPath.join
      rw [if_neg (by rw [hynostart]; exact Bool.false_ne_true)]
      have hcond : ((strOfList D == "") || str_ends "/" (strOfList D)) = false := by
        rw [Bool.or_eq_false_iff]
        constructor
        · exact beq_eq_false_iff_ne.mpr
            (fun h => hD (by simpa using congrArg String.data h))
        · exact hDlast
      rw [if_neg (by rw [hcond]; exact Bool.false_ne_true)]
      have htake : x.data.take (x.data.length - 5) = D ++ '/' :: S := by
        have hgroup : x.data = (D ++ '/' :: S) ++ '.' :: T := by
          rw [hxeq]
          simp
        rw [hgroup]
        have hlen : ((D ++ '/' :: S) ++ '.' :: T).length - 5 =
            (D ++ '/' :: S).length := by
          simp only [List.length_append, List.length_cons, hT4]
          omega
        rw [hlen]
        exact List.take_left _ _
      apply String.ext
      simp [String.data_append, hstem, strOfList_data,
        show ("/" : String).data = ['/'] from rfl]
      rw [show x.length - 5 = x.data.length - 5 from rfl, htake]
      simp

theorem length_basename_le (l : List Char) :
    (PyPath.basenameChars l).length ≤ l.length := by
  conv_rhs => rw [decomp_head_basename l]
  simp

/-- Helper: whether a truncated-and-`.ogg`-suffixed path is absolute is
decided by the first character of the original path. -/
theorem starts_slash_take (p : String) (c : Char) (r : List Char) (n : Nat)
    (hr : p.data = c :: r) (h1 : 1 ≤ n) :
    str_starts "/" (strOfList (p.data.take n) ++ ".ogg") = ('/' == c) := by
  unfold str_starts
  rw [String.data_append, strOfList_data, hr]
  obtain ⟨k, hk⟩ : ∃ k, n = k + 1 := ⟨n - 1, by omega⟩
  rw [hk, List.take_succ_cons, List.cons_append,
    show ("/" : String).data = ['/'] from rfl, leads_slash_head]

/-- C10 counterexample.  A MEDIA_URL-prefixed path with an empty
component, `/media//x.webm`, resolves to the absolute file `/x.webm`
(`os.path.join` discards everything before an absolute second argument),
and the rebuilt return value is `/x.ogg` — neither the input unchanged nor
the input with its extension replaced (that would be `/media//x.ogg`), and
no longer MEDIA_URL-prefixed, refuting the claim's shape preservation. -/
theorem C10_counterexample : ¬ convert_media_claim := by
  intro h
  rcases h media_env_all_files "/media//x.webm" with hc | hc
  · exact absurd hc (by decide)
  · exact absurd hc (by decide)

/-- C10 (amended: shape preservation holds for normalized paths — no
empty `//` component, no trailing slash — whose basename splits as a stem
with a 4-character extension).  `convert_media_for_whatsapp` returns the
input unchanged when the resolved file does not exist, when it is not
WebM, or when the `ffmpeg` conversion fails; otherwise, on a normalized
path, it returns either the input unchanged or the same path with its
extension replaced by `.ogg`, in the same form as the input
(MEDIA_URL-prefixed stays MEDIA_URL-prefixed, absolute stays absolute,
relative stays relative). -/
theorem C10_convert_media :
    ∀ (env : MediaEnv) (p : String),
      (env.fs_exists (resolve_media_path env p) = false →
        convert_media_for_whatsapp env p = p) ∧
      (mime_is_webm (resolve_media_path env p) = false →
        convert_media_for_whatsapp env p = p) ∧
      (env.ffmpeg_creates_output = false → convert_media_for_whatsapp env p = p) ∧
      (∀ (S T : List Char),
        twoSlashes p.data = false →
        str_ends "/" p = false →
        PyPath.basenameChars p.data = S ++ '.' :: T →
        T.length = 4 → (∀ c ∈ T, c ≠ '.') →
        S.any (fun c => c != '.') = true →
        convert_media_for_whatsapp env p = p ∨
          (convert_media_for_whatsapp env p = ext_replaced_ogg p ∧
           (str_starts MEDIA_URL p = true →
              str_starts MEDIA_URL (convert_media_for_whatsapp env p) = true) ∧
           (str_starts "/" p = true →
              str_starts "/" (convert_media_for_whatsapp env p) = true) ∧
           (str_starts "/" p = false →
              str_starts "/" (convert_media_for_whatsapp env p) = false))) := by
  intro env p
  refine ⟨?_, ?_, ?_, ?_⟩
  · intro h
    simp [convert_media_for_whatsapp, h]
  · intro h
    by_cases hf : env.fs_exists (resolve_media_path env p) = true
    · simp [convert_media_for_whatsapp, h, hf]
    · simp [convert_media_for_whatsapp, Bool.not_eq_true _ ▸ hf]
  · intro h
    by_cases hf : env.fs_exists (resolve_media_path env p) = true
    · by_cases hm : mime_is_webm (resolve_media_path env p) = true
      · simp [convert_media_for_whatsapp, h, hf, hm]
      · simp [convert_media_for_whatsapp, hf]
        intro hcontra
        exact absurd hcontra hm
    · simp [convert_media_for_whatsapp]
      intro hcontra
      simp [hcontra] at hf
  · intro S T h2s hend hb hT4 hTd hS
    by_cases hf : env.fs_exists (resolve_media_path env p) = true
    case neg =>
      left
      simp [convert_media_for_whatsapp]
      intro hcontra
      simp [hcontra] at hf
    case pos =>
    by_cases hm : mime_is_webm (resolve_media_path env p) = true
    case neg =>
      left
      simp [convert_media_for_whatsapp, hf]
      intro hcontra
      exact absurd hcontra hm
    case pos =>
    by_cases hff : env.ffmpeg_creates_output = true
    case neg =>
      left
      simp [convert_media_for_whatsapp, hf, hm,
        Bool.not_eq_true _ ▸ hff]
    case pos =>
    right
    -- common facts
    have hSne : S ≠ [] := any_ne_nil hS
    have hlenb : 6 ≤ (PyPath.basenameChars p.data).length := by
      rw [hb]
      simp only [List.length_append, List.length_cons, hT4]
      cases S with
      | nil => exact absurd rfl hSne
      | cons c cs => simp
    have hlenp : 6 ≤ p.data.length :=
      le_trans hlenb (length_basename_le p.data)
    by_cases hurl : str_starts MEDIA_URL p = true
    · -- the MEDIA_URL branch: strip the prefix, convert, re-prefix
      have hres : resolve_media_path env p =
          PyPath.join env.media_root
            (strOfList (p.data.drop MEDIA_URL.data.length)) := by
        unfold resolve_media_path
        rw [if_pos hurl]
      have hpdec : p.data = MEDIA_URL.data ++ p.data.drop MEDIA_URL.data.length := by
        exact leads_decomp hurl
      have hmedia : MEDIA_URL.data = ['/', 'm', 'e', 'd', 'i', 'a'] ++ ['/'] := by
        decide
      have hRne : p.data.drop MEDIA_URL.data.length ≠ [] := by
        intro hR
        rw [hR, List.append_nil] at hpdec
        have hsl : str_ends "/" p = true := by
          unfold str_ends
          rw [hpdec]
          decide
        rw [hsl] at hend
        simp at hend
      have hdec2 : p.data =
          (['/', 'm', 'e', 'd', 'i', 'a'] ++ ['/']) ++ p.data.drop MEDIA_URL.data.length := by
        conv_lhs => rw [hpdec, hmedia]
        rfl
      have hRb : PyPath.basenameChars (p.data.drop MEDIA_URL.data.length) =
          S ++ '.' :: T := by
        rw [← hb]
        conv_rhs => rw [hdec2]
        rw [basename_append_ends_slash _ (Or.inr ⟨['/', 'm', 'e', 'd', 'i', 'a'], rfl⟩)]
      have h2sR : twoSlashes (p.data.drop MEDIA_URL.data.length) = false := by
        rw [hpdec] at h2s
        exact twoSlashes_suffix h2s
      have hRhead : ∀ {c rest}, p.data.drop MEDIA_URL.data.length = c :: rest →
          c ≠ '/' := by
        intro c rest hR hc
        rw [hR, hc] at hdec2
        rw [List.append_assoc] at hdec2
        rw [hdec2, List.singleton_append, twoSlashes_mid] at h2s
        simp at h2s
      have hlenR : 6 ≤ (p.data.drop MEDIA_URL.data.length).length := by
        have h6 : 6 ≤ (PyPath.basenameChars (p.data.drop MEDIA_URL.data.length)).length := by
          rw [hRb]
          simp only [List.length_append, List.length_cons, hT4]
          cases S with
          | nil => exact absurd rfl hSne
          | cons c cs => simp
        exact le_trans h6 (length_basename_le _)
      have hbb : (PyPath.basename (resolve_media_path env p)).data =
          PyPath.basenameChars (p.data.drop MEDIA_URL.data.length) := by
        rw [hres]
        have hx := basename_join env.media_root
          (strOfList (p.data.drop MEDIA_URL.data.length))
        rw [strOfList_data] at hx
        exact hx
      have hconv : convert_media_for_whatsapp env p =
          PyPath.join MEDIA_URL
            (PyPath.join (PyPath.dirname (strOfList (p.data.drop MEDIA_URL.data.length)))
              (strOfList (PyPath.splitextStem
                (PyPath.basenameChars
                  (p.data.drop MEDIA_URL.data.length))) ++ ".ogg")) := by
        unfold convert_media_for_whatsapp
        dsimp only
        rw [hf, hm, hff]
        simp only [Bool.not_true, Bool.false_eq_true, if_false, if_true]
        rw [if_pos hurl, hbb]
      have hcore' :
          PyPath.join (PyPath.dirname (strOfList (p.data.drop MEDIA_URL.data.length)))
            (strOfList (PyPath.splitextStem
              (PyPath.basenameChars (p.data.drop MEDIA_URL.data.length))) ++ ".ogg") =
          strOfList ((p.data.drop MEDIA_URL.data.length).take
            ((p.data.drop MEDIA_URL.data.length).length - 5)) ++ ".ogg" := by
        have hx := join_dirname_stem (strOfList (p.data.drop MEDIA_URL.data.length))
          S T h2sR hRb hT4 hTd hS
        rw [strOfList_data] at hx
        exact hx
      obtain ⟨c, rest, hR⟩ :
          ∃ c rest, p.data.drop MEDIA_URL.data.length = c :: rest := by
        cases hR : p.data.drop MEDIA_URL.data.length with
        | nil => exact absurd hR hRne
        | cons c rest => exact ⟨c, rest, rfl⟩
      obtain ⟨k, hk⟩ : ∃ k, (p.data.drop MEDIA_URL.data.length).length - 5 = k + 1 :=
        ⟨(p.data.drop MEDIA_URL.data.length).length - 6, by omega⟩
      have htakehead : (p.data.drop MEDIA_URL.data.length).take
          ((p.data.drop MEDIA_URL.data.length).length - 5) = c :: rest.take k := by
        rw [hk, hR, List.take_succ_cons]
      have hogg_nostart : str_starts "/"
          (strOfList ((p.data.drop MEDIA_URL.data.length).take
            ((p.data.drop MEDIA_URL.data.length).length - 5)) ++ ".ogg") = false := by
        unfold str_starts
        rw [String.data_append, strOfList_data, htakehead, List.cons_append,
          show ("/" : String).data = ['/'] from rfl, leads_slash_head]
        exact beq_eq_false_iff_ne.mpr (Ne.symm (hRhead hR))
      have hjoin : PyPath.join MEDIA_URL
          (strOfList ((p.data.drop MEDIA_URL.data.length).take
            ((p.data.drop MEDIA_URL.data.length).length - 5)) ++ ".ogg") =
          MEDIA_URL ++
          (strOfList ((p.data.drop MEDIA_URL.data.length).take
            ((p.data.drop MEDIA_URL.data.length).length - 5)) ++ ".ogg") := by
        unfold PyPath.join
        rw [if_neg (by rw [hogg_nostart]; exact Bool.false_ne_true)]
        rw [if_pos (by decide)]
      have hM7 : MEDIA_URL.data.length = 7 := by decide
      have hRlen : (p.data.drop MEDIA_URL.data.length).length =
          p.data.length - MEDIA_URL.data.length := List.length_drop _ _
      have hplen : MEDIA_URL.data.length ≤ p.data.length := by
        rw [hM7]
        rw [hRlen, hM7] at hlenR
        omega
      have htk : p.data.take (p.data.length - 5) =
          MEDIA_URL.data ++ (p.data.drop MEDIA_URL.data.length).take
            (p.data.length - 5 - MEDIA_URL.data.length) := by
        have h1 : p.data.take (p.data.length - 5) =
            (MEDIA_URL.data ++ p.data.drop MEDIA_URL.data.length).take
              (p.data.length - 5) := by
          rw [← hpdec]
        rw [h1, List.take_append_eq_append_take,
          List.take_of_length_le (by rw [hM7]; rw [hRlen, hM7] at hlenR; omega)]
      have harith : p.data.length - 5 - MEDIA_URL.data.length =
          (p.data.drop MEDIA_URL.data.length).length - 5 := by
        rw [hRlen, hM7]
        rw [hRlen, hM7] at hlenR
        omega
      have hext : MEDIA_URL ++
          (strOfList ((p.data.drop MEDIA_URL.data.length).take
            ((p.data.drop MEDIA_URL.data.length).length - 5)) ++ ".ogg") =
          ext_replaced_ogg p := by
        unfold ext_replaced_ogg
        apply String.ext
        simp only [String.data_append, strOfList_data]
        rw [htk, harith]
        simp [List.append_assoc]
      rw [hconv, hcore', hjoin, hext]
      refine ⟨rfl, ?_, ?_, ?_⟩
      · intro _
        unfold ext_replaced_ogg str_starts
        rw [String.data_append, strOfList_data, htk, harith, List.append_assoc]
        exact leads_self_append _ _
      · intro _
        unfold ext_replaced_ogg str_starts
        rw [String.data_append, strOfList_data, htk,
          show MEDIA_URL.data = ['/'] ++ ['m', 'e', 'd', 'i', 'a', '/'] from by decide,
          List.append_assoc, List.append_assoc]
        exact leads_self_append _ _
      · intro hns
        exfalso
        have hsl : str_starts "/" p = true := by
          unfold str_starts
          rw [hpdec,
            show MEDIA_URL.data = ['/'] ++ ['m', 'e', 'd', 'i', 'a', '/'] from by decide,
            List.append_assoc]
          exact leads_self_append _ _
        rw [hsl] at hns
        simp at hns
    · -- not MEDIA_URL-prefixed
      by_cases habs : str_starts "/" p = true
      · -- absolute path: converted in place
        have hres : resolve_media_path env p = p := by
          unfold resolve_media_path
          rw [if_neg hurl, habs]
          simp
        have hcore := join_dirname_stem p S T h2s hb hT4 hTd hS
        have hconv : convert_media_for_whatsapp env p = ext_replaced_ogg p := by
          unfold convert_media_for_whatsapp
          dsimp only
          rw [hf, hm, hff]
          simp only [Bool.not_true, Bool.false_eq_true, if_false, if_true]
          rw [if_neg hurl, habs]
          simp only [Bool.not_true, Bool.false_eq_true, if_false]
          rw [show PyPath.dirname (resolve_media_path env p) = PyPath.dirname p from by
            rw [hres]]
          rw [show (PyPath.basename (resolve_media_path env p)).data =
              PyPath.basenameChars p.data from by rw [hres]; rfl]
          rw [hcore]
          rfl
        refine ⟨hconv, ?_, ?_, ?_⟩
        · intro hcontra
          exact absurd hcontra hurl
        · intro _
          rw [hconv]
          obtain ⟨r, hr⟩ : ∃ r, p.data = '/' :: r := by
            have hx := habs
            unfold str_starts at hx
            cases hpd : p.data with
            | nil =>
                rw [hpd] at hx
                exact absurd hx (by decide)
            | cons c rest =>
                rw [hpd, show ("/" : String).data = ['/'] from rfl,
                  leads_slash_head] at hx
                have hc : c = '/' := (eq_of_beq hx).symm
                subst hc
                exact ⟨rest, rfl⟩
          exact (starts_slash_take p '/' r (p.data.length - 5) hr (by omega)).trans
            (by decide)
        · intro hns
          rw [habs] at hns
          simp at hns
      · -- relative path: converted relative to MEDIA_ROOT
        have habs' : str_starts "/" p = false := by simpa using habs
        have hres : resolve_media_path env p = PyPath.join env.media_root p := by
          unfold resolve_media_path
          rw [if_neg hurl, habs']
          simp
        have hcore := join_dirname_stem p S T h2s hb hT4 hTd hS
        have hconv : convert_media_for_whatsapp env p = ext_replaced_ogg p := by
          unfold convert_media_for_whatsapp
          dsimp only
          rw [hf, hm, hff]
          simp only [Bool.not_true, Bool.false_eq_true, if_false, if_true]
          rw [if_neg hurl, habs']
          simp only [Bool.not_false]
          rw [if_pos trivial]
          rw [show (PyPath.basename (resolve_media_path env p)).data =
              PyPath.basenameChars p.data from by
            rw [hres]
            exact basename_join _ _]
          rw [hcore]
          rfl
        refine ⟨hconv, ?_, ?_, ?_⟩
        · intro hcontra
          exact absurd hcontra hurl
        · intro hcontra
          exact absurd hcontra habs
        · intro _
          rw [hconv]
          obtain ⟨c, r, hr⟩ : ∃ c r, p.data = c :: r := by
            cases hpd : p.data with
            | nil =>
                rw [hpd] at hlenp
                exact absurd hlenp (by decide)
            | cons c r => exact ⟨c, r, rfl⟩
          have hcns : c ≠ '/' := by
            intro hc
            have hsl : str_starts "/" p = true := by
              unfold str_starts
              rw [hr, hc, show ("/" : String).data = ['/'] from rfl,
                leads_slash_head]
              decide
            rw [hsl] at habs'
            simp at habs'
          exact (starts_slash_take p c r (p.data.length - 5) hr (by omega)).trans
            (beq_eq_false_iff_ne.mpr (Ne.symm hcns))

/-- C10 witness: the amended theorem applied at the repository's own test
path `/media/whatsapp/uploads/test.webm` (converted, URL form preserved)
and at a non-WebM file (returned unchanged). -/
theorem C10_convert_media_witness :
    (convert_media_for_whatsapp media_env_test_files
        "/media/whatsapp/uploads/test.webm" = "/media/whatsapp/uploads/test.webm" ∨
      (convert_media_for_whatsapp media_env_test_files
          "/media/whatsapp/uploads/test.webm" =
        ext_replaced_ogg "/media/whatsapp/uploads/test.webm" ∧
       (str_starts MEDIA_URL "/media/whatsapp/uploads/test.webm" = true →
          str_starts MEDIA_URL (convert_media_for_whatsapp media_env_test_files
            "/media/whatsapp/uploads/test.webm") = true) ∧
       (str_starts "/" "/media/whatsapp/uploads/test.webm" = true →
          str_starts "/" (convert_media_for_whatsapp media_env_test_files
            "/media/whatsapp/uploads/test.webm") = true) ∧
       (str_starts "/" "/media/whatsapp/uploads/test.webm" = false →
          str_starts "/" (convert_media_for_whatsapp media_env_test_files
            "/media/whatsapp/uploads/test.webm") = false))) ∧
    convert_media_for_whatsapp media_env_test_files "/media/x.mp3" = "/media/x.mp3" :=
  ⟨(C10_convert_media media_env_test_files "/media/whatsapp/uploads/test.webm").2.2.2
      "test".data "webm".data (by decide) (by decide) (by decide) (by decide)
      (by decide) (by decide),
   (C10_convert_media media_env_test_files "/media/x.mp3").2.1 (by decide)⟩

end CRM
